import Mathlib

/-!
Shallow embedding of the SafeSphere safe-route core (threat-zone geometry,
point-proximity route risk, detour synthesis, and the risk-graph k-safest-path
search) together with proofs about the spec claims.

Geometry from `Heatmap/engines/safe_route/threat_zones.py` and
`Heatmap/backend_api.py` is embedded over ℝ (the Python code computes with
IEEE floats; the embedding idealises them as reals).  The graph search from
`Heatmap/engines/safe_route/graph_utils.py` is embedded over ℚ so that it is
executable.  Python's `round(x, n)` (banker's rounding on floats) is modelled
as rounding to the nearest multiple of 10^-n; no statement below depends on
the behaviour at exact ties.
-/

open Real

noncomputable section

/-- `math.radians`. -/
def radiansR (x : ℝ) : ℝ := x * π / 180

/-- `math.degrees`. -/
def degreesR (x : ℝ) : ℝ := x * 180 / π

/-- Python `round(x, 3)` modelled over ℝ. -/
def round3 (x : ℝ) : ℝ := (round (1000 * x) : ℤ) / 1000

/-- Python `round(x, 4)` modelled over ℝ. -/
def round4 (x : ℝ) : ℝ := (round (10000 * x) : ℤ) / 10000

/-- `ThreatZoneManager.haversine_distance` (threat_zones.py, lines 108-131). -/
def haversineKm (lat1 lng1 lat2 lng2 : ℝ) : ℝ :=
  let lat1r := radiansR lat1
  let lng1r := radiansR lng1
  let lat2r := radiansR lat2
  let lng2r := radiansR lng2
  let dlat := lat2r - lat1r
  let dlng := lng2r - lng1r
  let a := Real.sin (dlat / 2) ^ 2 +
    Real.cos lat1r * Real.cos lat2r * Real.sin (dlng / 2) ^ 2
  6371 * (2 * Real.arcsin (Real.sqrt a))

/-- `ThreatZone` dataclass (threat_zones.py, lines 19-32). -/
structure ThreatZone where
  zone_id : String
  latitude : ℝ
  longitude : ℝ
  radius_km : ℝ
  threat_level : String
  threat_score : ℝ
  name : String

/-- `ThreatZoneManager._distance_point_to_line_segment` (threat_zones.py,
lines 216-265): planar (equirectangular) approximation scaled at the
segment's midpoint latitude. -/
def distPointToSegKm (pointLat pointLng aLat aLng bLat bLng : ℝ) : ℝ :=
  let latCenter := (aLat + bLat) / 2
  let s := 111 * Real.cos (radiansR latCenter)
  let x1 := aLng * s
  let y1 := aLat * 111
  let x2 := bLng * s
  let y2 := bLat * 111
  let px := pointLng * s
  let py := pointLat * 111
  let dx := x2 - x1
  let dy := y2 - y1
  if dx = 0 ∧ dy = 0 then
    Real.sqrt ((px - x1) ^ 2 + (py - y1) ^ 2)
  else
    let t := ((px - x1) * dx + (py - y1) * dy) / (dx * dx + dy * dy)
    let t2 := max 0 (min 1 t)
    let cx := x1 + t2 * dx
    let cy := y1 + t2 * dy
    Real.sqrt ((px - cx) ^ 2 + (py - cy) ^ 2)

/-- `ThreatZoneManager.line_segment_intersects_circle` (threat_zones.py,
lines 156-214).  Returns early `true` when both endpoints are within the
effective radius by haversine distance, early `false` when both are outside
and the bounding boxes are disjoint, otherwise tests the planar
point-to-segment distance. -/
def lineSegIntersectsCircle (lat1 lng1 lat2 lng2 : ℝ) (circle : ThreatZone)
    (bufferKm : ℝ) : Bool :=
  let eff := circle.radius_km + bufferKm
  let startDist := haversineKm lat1 lng1 circle.latitude circle.longitude
  let endDist := haversineKm lat2 lng2 circle.latitude circle.longitude
  if startDist ≤ eff ∧ endDist ≤ eff then true
  else
    let latMin := min lat1 lat2
    let latMax := max lat1 lat2
    let lngMin := min lng1 lng2
    let lngMax := max lng1 lng2
    let cLatMin := circle.latitude - eff / 111
    let cLatMax := circle.latitude + eff / 111
    let cLngMin := circle.longitude - eff / (111 * Real.cos (radiansR circle.latitude))
    let cLngMax := circle.longitude + eff / (111 * Real.cos (radiansR circle.latitude))
    if eff < startDist ∧ eff < endDist ∧
        (latMax < cLatMin ∨ cLatMax < latMin ∨ lngMax < cLngMin ∨ cLngMax < lngMin) then
      false
    else
      decide (distPointToSegKm circle.latitude circle.longitude lat1 lng1 lat2 lng2 ≤ eff)

/-- Python `str.upper()` restricted to ASCII strings. -/
def strUpper (s : String) : String := ⟨s.data.map Char.toUpper⟩

/-- The radius table of `ThreatZoneManager.create_from_incident`
(threat_zones.py, lines 72-79): `radius_map.get(threat_level.upper(), 0.8)`. -/
def radiusForLevel (level : String) : ℝ :=
  let u := strUpper level
  if u = "CRITICAL" then 1.5
  else if u = "HIGH" then 1.2
  else if u = "MEDIUM" then 0.8
  else if u = "LOW" then 0.5
  else 0.8

/-- `ThreatZoneManager.create_from_incident` (threat_zones.py, lines 54-91),
as the zone it constructs. -/
def createFromIncident (incidentId : String) (latitude longitude : ℝ)
    (threatLevel : String) (threatScore : ℝ) (nm : String) : ThreatZone :=
  { zone_id := incidentId
    latitude := latitude
    longitude := longitude
    radius_km := radiusForLevel threatLevel
    threat_level := threatLevel
    threat_score := threatScore
    name := nm }

/-- A raw incident record as read from the database: every field may be
missing.  (`incident_id` defaults in the source to a string derived from the
object's memory address, which has no observable content; it is modelled by
a fixed placeholder.) -/
structure RawIncident where
  incident_id : Option String
  latitude : Option ℝ
  longitude : Option ℝ
  threat_level : Option String
  threat_score : Option ℝ
  behavior_summary : Option String

/-- `ThreatZoneManager.load_from_incidents` (threat_zones.py, lines 93-106):
records lacking coordinates are skipped, the rest become zones. -/
def loadFromIncidents (incidents : List RawIncident) : List ThreatZone :=
  incidents.filterMap fun inc =>
    match inc.latitude, inc.longitude with
    | some lat, some lng =>
        some (createFromIncident (inc.incident_id.getD "THREAT_UNKNOWN") lat lng
          (inc.threat_level.getD "MEDIUM") (inc.threat_score.getD 0.5)
          (inc.behavior_summary.getD ""))
    | _, _ => none

/-- `ThreatZoneManager.route_intersects_any_threat` (threat_zones.py,
lines 267-300).  Coordinates are `(lng, lat)` pairs; segments are scanned in
order, zones in store order, short-circuiting on the first intersection. -/
def routeIntersectsAnyThreat (zones : List ThreatZone) :
    List ((ℝ × ℝ) × (ℝ × ℝ)) → ℝ → List String → Bool × Option ThreatZone
  | [], _, _ => (false, none)
  | (c1, c2) :: rest, bufferKm, levels =>
    match zones.find? (fun z => strUpper z.threat_level ∈ levels &&
        lineSegIntersectsCircle c1.2 c1.1 c2.2 c2.1 z bufferKm) with
    | some z => (true, some z)
    | none => routeIntersectsAnyThreat zones rest bufferKm levels

/-- Consecutive coordinate pairs of a polyline (`range(len(coords) - 1)`). -/
def segPairs (coords : List (ℝ × ℝ)) : List ((ℝ × ℝ) × (ℝ × ℝ)) :=
  coords.zip coords.tail

/-- Planar distance from a zone's centre to one polyline segment, with the
source's `(lng, lat)` coordinate convention. -/
def segDist (z : ThreatZone) (p : (ℝ × ℝ) × (ℝ × ℝ)) : ℝ :=
  distPointToSegKm z.latitude z.longitude p.1.2 p.1.1 p.2.2 p.2.1

/-- The `dist < min_distance` running-minimum update shared by
`get_closest_threat_to_route` and `_calculate_route_risk`. -/
def minUpdate {α : Type} (st : Option (ℝ × α)) (d : ℝ) (x : α) :
    Option (ℝ × α) :=
  match st with
  | none => some (d, x)
  | some (m, w) => if d < m then some (d, x) else some (m, w)

/-- Inner zone loop of `get_closest_threat_to_route`. -/
def closestScanZones (p : (ℝ × ℝ) × (ℝ × ℝ)) (st : Option (ℝ × ThreatZone)) :
    List ThreatZone → Option (ℝ × ThreatZone)
  | [] => st
  | z :: zs => closestScanZones p (minUpdate st (segDist z p) z) zs

/-- Outer segment loop of `get_closest_threat_to_route`. -/
def closestScan (zones : List ThreatZone) (st : Option (ℝ × ThreatZone)) :
    List ((ℝ × ℝ) × (ℝ × ℝ)) → Option (ℝ × ThreatZone)
  | [] => st
  | p :: rest => closestScan zones (closestScanZones p st zones) rest

/-- The record returned by `get_closest_threat_to_route`. -/
structure ClosestThreat where
  zone_id : String
  threat_level : String
  threat_score : ℝ
  min_distance_km : ℝ
  inside_zone : Bool

/-- `ThreatZoneManager.get_closest_threat_to_route` (threat_zones.py,
lines 302-341). -/
def getClosestThreatToRoute (zones : List ThreatZone) (coords : List (ℝ × ℝ)) :
    Option ClosestThreat :=
  match closestScan zones none (segPairs coords) with
  | none => none
  | some (m, z) =>
      some { zone_id := z.zone_id
             threat_level := z.threat_level
             threat_score := z.threat_score
             min_distance_km := round3 (max 0 (m - z.radius_km))
             inside_zone := decide (m ≤ z.radius_km) }

/-- Route geometry as supplied by the provider: `(lng, lat)` pairs. -/
structure Geo where
  coordinates : List (ℝ × ℝ)

/-- A provider route (`geometry`, `duration`, `distance`). -/
structure OsrmRoute where
  geometry : Geo
  duration : ℝ
  distance : ℝ

/-- Loop body of `ThreatZoneManager.filter_routes_by_safety` (threat_zones.py,
lines 361-377): partition the routes into the safe and rejected buckets. -/
def filterRoutesGo (zones : List ThreatZone) (bufferKm : ℝ) :
    List OsrmRoute → List OsrmRoute × List (OsrmRoute × Option ThreatZone)
  | [] => ([], [])
  | r :: rest =>
    let acc := filterRoutesGo zones bufferKm rest
    if r.geometry.coordinates.isEmpty then (r :: acc.1, acc.2)
    else
      let res := routeIntersectsAnyThreat zones (segPairs r.geometry.coordinates)
        bufferKm ["CRITICAL", "HIGH", "MEDIUM"]
      if res.1 then (acc.1, (r, res.2) :: acc.2) else (r :: acc.1, acc.2)

/-- `ThreatZoneManager.filter_routes_by_safety` (threat_zones.py,
lines 343-384): safe routes if any survive, otherwise all routes. -/
def filterRoutesBySafety (zones : List ThreatZone) (routes : List OsrmRoute)
    (bufferKm : ℝ) : List OsrmRoute :=
  let part := filterRoutesGo zones bufferKm routes
  if part.1.isEmpty then routes else part.1

/-- A sanitized nearby threat as built in `calculate_safe_route`
(backend_api.py, lines 586-594). -/
structure Incident where
  incident_id : Option String
  latitude : ℝ
  longitude : ℝ
  threat_level : String
  threat_score : ℝ
  behavior_summary : Option String

/-- The `threat_data` dictionary of `_calculate_route_risk`. -/
inductive RiskInfo
  | noCoordinates
  | intersectionPoint (threat_id : Option String) (distance_to_threat_km : ℝ)
  | safeInfo (closest_threat_km : Option ℝ) (closest_threat_id : Option String)

/-- Inner incident loop of `_calculate_route_risk` (backend_api.py,
lines 400-418): either an early unsafe return or the updated minimum. -/
def riskScanIncidents (lat lng : ℝ) (st : Option (ℝ × Incident)) :
    List Incident → Option (ℝ × Incident) ⊕ Option String × ℝ
  | [] => Sum.inl st
  | inc :: rest =>
    let d := haversineKm lat lng inc.latitude inc.longitude
    if d ≤ 0.05 then Sum.inr (inc.incident_id, round4 d)
    else riskScanIncidents lat lng (minUpdate st d inc) rest

/-- Final safe-branch bookkeeping of `_calculate_route_risk` (backend_api.py,
lines 420-438). -/
def riskFinish (st : Option (ℝ × Incident)) : Bool × ℝ × RiskInfo :=
  match st with
  | none => (true, round3 1, RiskInfo.safeInfo none none)
  | some (m, c) =>
    let closestKm := round3 m
    let score := if 3 ≤ closestKm then 1 else max 0.1 (closestKm / 3)
    (true, round3 score, RiskInfo.safeInfo (some closestKm) c.incident_id)

/-- Outer coordinate loop of `_calculate_route_risk`. -/
def riskScanCoords (incidents : List Incident) (st : Option (ℝ × Incident)) :
    List (ℝ × ℝ) → Bool × ℝ × RiskInfo
  | [] => riskFinish st
  | (lng, lat) :: rest =>
    match riskScanIncidents lat lng st incidents with
    | Sum.inr (tid, d) => (false, 0, RiskInfo.intersectionPoint tid d)
    | Sum.inl st2 => riskScanCoords incidents st2 rest

/-- `_calculate_route_risk` (backend_api.py, lines 369-438): the
point-proximity safety policy. -/
def calcRouteRisk (geo : Geo) (incidents : List Incident) : Bool × ℝ × RiskInfo :=
  if geo.coordinates.isEmpty then (true, 1, RiskInfo.noCoordinates)
  else riskScanCoords incidents none geo.coordinates

/-- `math.atan2` (only needed to embed `_destination_point`; no claim
depends on its value). -/
def atan2R (y x : ℝ) : ℝ :=
  if 0 < x then Real.arctan (y / x)
  else if x < 0 ∧ 0 ≤ y then Real.arctan (y / x) + π
  else if x < 0 then Real.arctan (y / x) - π
  else if 0 < y then π / 2
  else if y < 0 then -(π / 2)
  else 0

/-- `_destination_point` (backend_api.py, lines 353-367). -/
def destinationPoint (lat lng bearingDeg distanceKm : ℝ) : ℝ × ℝ :=
  let bearing := radiansR bearingDeg
  let lat1 := radiansR lat
  let lon1 := radiansR lng
  let dDivR := distanceKm / 6371
  let lat2 := Real.arcsin (Real.sin lat1 * Real.cos dDivR +
    Real.cos lat1 * Real.sin dDivR * Real.cos bearing)
  let lon2 := lon1 + atan2R (Real.sin bearing * Real.sin dDivR * Real.cos lat1)
    (Real.cos dDivR - Real.sin lat1 * Real.sin lat2)
  (degreesR lat2, degreesR lon2)

/-- The detour radii table of `calculate_safe_route` (backend_api.py,
lines 630-635): `threat_radii_map.get(t_level, 0.6)`.  Note it differs from
`radiusForLevel` in threat_zones.py. -/
def detourRadius (level : String) : ℝ :=
  if level = "CRITICAL" then 1.2
  else if level = "HIGH" then 1
  else if level = "MEDIUM" then 0.6
  else if level = "LOW" then 0.3
  else 0.6

/-- `(threat.get("threat_level") or "MEDIUM")`: Python's falsy `or`. -/
def levelOrMedium (s : String) : String := if s = "" then "MEDIUM" else s

/-- The bearings tried around a threat (backend_api.py, line 640). -/
def bearingsList : List ℝ := [0, 45, 90, 135, 180, 225, 270, 315]

/-- The clearance offsets tried (backend_api.py, line 652). -/
def clearancesList : List ℝ := [0.2, 0.5, 1.0]

/-- The `(lat, lng, bearing, offset_km)` tuples passed to `_destination_point`
by the detour loop of `calculate_safe_route` (lines 642-655), flattened in
the deterministic threat → clearance → bearing order. -/
def detourAttempts (threats : List Incident) : List (ℝ × ℝ × ℝ × ℝ) :=
  threats.flatMap fun t =>
    let lvl := strUpper (levelOrMedium t.threat_level)
    let r := detourRadius lvl
    clearancesList.flatMap fun extra =>
      bearingsList.map fun b => (t.latitude, t.longitude, b, r + 0.05 + extra)

/-- An external routing provider queried with
(startLat, startLng, viaLat, viaLng, endLat, endLng). -/
def Provider : Type := ℝ → ℝ → ℝ → ℝ → ℝ → ℝ → List OsrmRoute

/-- Innermost alternatives loop of the detour search (backend_api.py,
lines 658-668): the first alternative judged safe by `_calculate_route_risk`
is taken. -/
def detourScanAlts (threats : List Incident) :
    List OsrmRoute → Option (OsrmRoute × (Bool × ℝ × RiskInfo))
  | [] => none
  | alt :: rest =>
    let res := calcRouteRisk alt.geometry threats
    if res.1 then some (alt, res) else detourScanAlts threats rest

/-- Bearings loop of the detour search (backend_api.py, lines 654-670). -/
def detourScanBearings (provider : Provider) (sLat sLng eLat eLng : ℝ)
    (threats : List Incident) (tLat tLng offsetKm : ℝ) :
    List ℝ → Option (OsrmRoute × (Bool × ℝ × RiskInfo))
  | [] => none
  | b :: rest =>
    let via := destinationPoint tLat tLng b offsetKm
    match detourScanAlts threats (provider sLat sLng via.1 via.2 eLat eLng) with
    | some x => some x
    | none => detourScanBearings provider sLat sLng eLat eLng threats tLat tLng offsetKm rest

/-- Clearances loop of the detour search (backend_api.py, lines 652-672). -/
def detourScanClearances (provider : Provider) (sLat sLng eLat eLng : ℝ)
    (threats : List Incident) (tLat tLng tRadius : ℝ) :
    List ℝ → Option (OsrmRoute × (Bool × ℝ × RiskInfo))
  | [] => none
  | extra :: rest =>
    match detourScanBearings provider sLat sLng eLat eLng threats tLat tLng
        (tRadius + 0.05 + extra) bearingsList with
    | some x => some x
    | none => detourScanClearances provider sLat sLng eLat eLng threats tLat tLng tRadius rest

/-- Threats loop of the detour search (backend_api.py, lines 642-674). -/
def detourScanThreats (provider : Provider) (sLat sLng eLat eLng : ℝ)
    (threats : List Incident) :
    List Incident → Option (OsrmRoute × (Bool × ℝ × RiskInfo))
  | [] => none
  | t :: rest =>
    let lvl := strUpper (levelOrMedium t.threat_level)
    match detourScanClearances provider sLat sLng eLat eLng threats
        t.latitude t.longitude (detourRadius lvl) clearancesList with
    | some x => some x
    | none => detourScanThreats provider sLat sLng eLat eLng threats rest

/-- The whole detour-synthesis search of `calculate_safe_route`
(backend_api.py, lines 638-674). -/
def findDetour (provider : Provider) (sLat sLng eLat eLng : ℝ)
    (threats : List Incident) : Option (OsrmRoute × (Bool × ℝ × RiskInfo)) :=
  detourScanThreats provider sLat sLng eLat eLng threats threats

/-- All provider alternatives the detour search can examine, flattened in
search order. -/
def flattenAlts (provider : Provider) (sLat sLng eLat eLng : ℝ)
    (threats : List Incident) : List OsrmRoute :=
  (detourAttempts threats).flatMap fun a =>
    let via := destinationPoint a.1 a.2.1 a.2.2.1 a.2.2.2
    provider sLat sLng via.1 via.2 eLat eLng

/-- The request of `/route/calculate`. -/
structure RouteReq where
  start_lat : ℝ
  start_lng : ℝ
  end_lat : ℝ
  end_lng : ℝ

/-- Nearby-threat filtering and sanitisation of `calculate_safe_route`
(backend_api.py, lines 565-594): a ±0.04 degree box around start/end. -/
def nearbyThreats (req : RouteReq) (incidents : List RawIncident) : List Incident :=
  incidents.filterMap fun inc =>
    match inc.latitude, inc.longitude with
    | some lat, some lng =>
        if min req.start_lat req.end_lat - 0.04 ≤ lat ∧
            lat ≤ max req.start_lat req.end_lat + 0.04 ∧
            min req.start_lng req.end_lng - 0.04 ≤ lng ∧
            lng ≤ max req.start_lng req.end_lng + 0.04 then
          some { incident_id := inc.incident_id
                 latitude := lat
                 longitude := lng
                 threat_level := strUpper (levelOrMedium (inc.threat_level.getD ""))
                 threat_score := inc.threat_score.getD 0
                 behavior_summary := inc.behavior_summary }
        else none
    | _, _ => none

/-- An evaluated route as assembled in `calculate_safe_route`, lines 600-616. -/
structure EvalRoute where
  geometry : Geo
  duration : ℝ
  distance : ℝ
  is_safe : Bool
  safety_score : ℝ
  threat_info : RiskInfo

/-- Stable insertion of an evaluated route into a list sorted by descending
safety score (`safe_routes.sort(key=..., reverse=True)`). -/
def insertByScoreDesc (x : EvalRoute) : List EvalRoute → List EvalRoute
  | [] => [x]
  | y :: ys => if y.safety_score < x.safety_score then x :: y :: ys
      else y :: insertByScoreDesc x ys

/-- Stable sort by descending safety score. -/
def sortByScoreDesc : List EvalRoute → List EvalRoute
  | [] => []
  | x :: xs => insertByScoreDesc x (sortByScoreDesc xs)

/-- Result of the `/route/calculate` flow, restricted to the data the spec
talks about. -/
inductive RouteCalcResult
  | noRoutes
  | success (route : EvalRoute) (routing_mode : String)
      (routes_analyzed safe_routes_found : ℕ) (threats_near_route : List Incident)
  | noSafeRoutes (threats_blocking : List Incident) (rejected_routes_count : ℕ)
      (recommendations : List String)

/-- The fixed recommendation strings of the `NO_SAFE_ROUTES` failure
(backend_api.py, lines 690-694). -/
def noSafeRecommendations : List String :=
  ["Wait for threats to clear", "Choose a different destination",
   "Consider calling for assistance"]

/-- The per-route evaluation record assembled in `calculate_safe_route`,
lines 600-611. -/
def evalRouteWith (nearby : List Incident) (r : OsrmRoute) : EvalRoute :=
  let res := calcRouteRisk r.geometry nearby
  { geometry := r.geometry, duration := r.duration, distance := r.distance
    is_safe := res.1, safety_score := res.2.1, threat_info := res.2.2 }

/-- The core of `calculate_safe_route` (backend_api.py, lines 546-712),
after the provider has supplied the initial candidate routes and the
database the incident list. -/
def calcSafeRoute (req : RouteReq) (routes : List OsrmRoute)
    (incidents : List RawIncident) (provider : Provider) : RouteCalcResult :=
  if routes.isEmpty then RouteCalcResult.noRoutes
  else
    let nearby := nearbyThreats req incidents
    let evaluated : List EvalRoute := routes.map (evalRouteWith nearby)
    let safeRoutes := evaluated.filter (·.is_safe)
    let rejected := evaluated.filter (fun r => !r.is_safe)
    match sortByScoreDesc safeRoutes with
    | best :: _ =>
        RouteCalcResult.success best "SAFE" routes.length safeRoutes.length nearby
    | [] =>
      match findDetour provider req.start_lat req.start_lng req.end_lat req.end_lng nearby with
      | some (alt, res) =>
          RouteCalcResult.success
            { geometry := alt.geometry, duration := alt.duration
              distance := alt.distance, is_safe := true
              safety_score := res.2.1, threat_info := res.2.2 }
            "SAFE_VIA_DETOUR" routes.length 1 nearby
      | none =>
          RouteCalcResult.noSafeRoutes nearby rejected.length noSafeRecommendations

/-- One entry of the `threat_intersections` list built by
`GraphUtils.validate_route_safety` (graph_utils.py, lines 507-513). -/
structure ThreatIntersection where
  zone_id : String
  threat_level : String
  radius_km : ℝ

/-- The `safety_metrics` dictionary of `GraphUtils.validate_route_safety`.
(The empty-coordinates branch of `rank_routes_by_safety` omits the last two
keys; that is modelled as `none` / `false`.) -/
structure SafetyMetrics where
  is_safe : Bool
  safety_score : ℝ
  threat_intersections : List ThreatIntersection
  closest_threat : Option ClosestThreat
  has_critical_threat : Bool

/-- `GraphUtils.validate_route_safety` (graph_utils.py, lines 474-535). -/
def validateRouteSafety (coords : List (ℝ × ℝ)) (zones : List ThreatZone) :
    SafetyMetrics :=
  let inter := routeIntersectsAnyThreat zones (segPairs coords) 0.1
    ["CRITICAL", "HIGH", "MEDIUM"]
  let intersections : List ThreatIntersection :=
    match inter.2 with
    | some z => if inter.1 then [⟨z.zone_id, z.threat_level, z.radius_km⟩] else []
    | none => []
  let closest := getClosestThreatToRoute zones coords
  match closest with
  | some c =>
      { is_safe := !c.inside_zone && !inter.1
        safety_score := round3 (max 0 (min 1 (c.min_distance_km / 2)))
        threat_intersections := intersections
        closest_threat := some c
        has_critical_threat :=
          decide ((intersections.filter (fun t => t.threat_level = "CRITICAL")).length > 0) }
  | none =>
      { is_safe := true
        safety_score := round3 1
        threat_intersections := intersections
        closest_threat := none
        has_critical_threat :=
          decide ((intersections.filter (fun t => t.threat_level = "CRITICAL")).length > 0) }

/-- Stable insertion by descending `safety_score` for ranked routes. -/
def insertRankedDesc (x : OsrmRoute × SafetyMetrics) :
    List (OsrmRoute × SafetyMetrics) → List (OsrmRoute × SafetyMetrics)
  | [] => [x]
  | y :: ys => if y.2.safety_score < x.2.safety_score then x :: y :: ys
      else y :: insertRankedDesc x ys

/-- Stable sort by descending `safety_score`. -/
def sortRankedDesc : List (OsrmRoute × SafetyMetrics) → List (OsrmRoute × SafetyMetrics)
  | [] => []
  | x :: xs => insertRankedDesc x (sortRankedDesc xs)

/-- `GraphUtils.rank_routes_by_safety` (graph_utils.py, lines 537-590). -/
def rankRoutesBySafety (routes : List OsrmRoute) (zones : List ThreatZone)
    (keepRejected : Bool) : List (OsrmRoute × SafetyMetrics) :=
  let ranked := routes.map fun r =>
    if r.geometry.coordinates.isEmpty then
      (r, ({ is_safe := true, safety_score := 1, threat_intersections := []
             closest_threat := none, has_critical_threat := false } : SafetyMetrics))
    else (r, validateRouteSafety r.geometry.coordinates zones)
  let sorted := sortRankedDesc ranked
  if keepRejected then sorted
  else
    let safeOnly := sorted.filter (fun x => x.2.is_safe)
    if safeOnly.isEmpty then sorted else safeOnly

end

/-- Python `round(x, 3)` over ℚ (graph risks are embedded as rationals). -/
def round3q (x : ℚ) : ℚ := (round (1000 * x) : ℤ) / 1000

/-- An edge record of the `HeatmapAdapter.edges` dict. -/
structure GEdge where
  from_node : String
  to_node : String
  risk : ℚ
deriving DecidableEq

/-- `adapter.edges`: an insertion-ordered dict, as an association list. -/
abbrev EdgeList := List (String × GEdge)

/-- `adapter.nodes` restricted to the risk field used by the search. -/
abbrev NodeList := List (String × ℚ)

/-- `RouteSegment` dataclass (graph_utils.py, lines 19-28). -/
structure RouteSeg where
  from_node : String
  to_node : String
  edge_id : String
  risk : ℚ
deriving DecidableEq

/-- A priority-queue entry `(accumulated_risk, current_node, path, segments)`
(graph_utils.py, line 65). -/
structure DEntry where
  risk : ℚ
  node : String
  path : List String
  segs : List RouteSeg
deriving DecidableEq

/-- A search result `(node_path, total_risk, route_segments)`. -/
abbrev PathResult := List String × ℚ × List RouteSeg

/-- Lexicographic comparison of string lists (Python list comparison). -/
def listStrLE : List String → List String → Bool
  | [], _ => true
  | _ :: _, [] => false
  | a :: as_, b :: bs =>
    if a < b then true else if b < a then false else listStrLE as_ bs

/-- Python tuple comparison on heap entries.  In every reachable state two
entries agreeing on `(risk, node, path)` have equal segments, so comparing
the first three components is a faithful model of `heapq`'s ordering. -/
def entryLE (a b : DEntry) : Bool :=
  if a.risk < b.risk then true
  else if b.risk < a.risk then false
  else if a.node < b.node then true
  else if b.node < a.node then false
  else listStrLE a.path b.path

/-- `heappop`: remove the least entry (leftmost among ties). -/
def popMin : List DEntry → Option (DEntry × List DEntry)
  | [] => none
  | e :: rest =>
    match popMin rest with
    | none => some (e, [])
    | some (m, rest2) => if entryLE e m then some (e, rest) else some (m, e :: rest2)

/-- `HeatmapAdapter.get_connected_nodes` (heatmap_adapter.py, lines 273-289):
directed adjacency read off the edges dict in insertion order. -/
def getConnectedNodes (edges : EdgeList) (n : String) : List (String × ℚ) :=
  edges.filterMap fun p =>
    if p.2.from_node = n then some (p.2.to_node, p.2.risk) else none

/-- `adapter.get_node_risk(n) or 0.0` (graph_utils.py, line 87). -/
def getNodeRisk (nodes : NodeList) (n : String) : ℚ := (nodes.lookup n).getD 0

/-- The `edge_id` lookup loop (graph_utils.py, lines 93-97): first edge in
dict order joining the two nodes. -/
def firstMatch (edges : EdgeList) (u v : String) : Option (String × GEdge) :=
  edges.find? fun p => p.2.from_node == u && p.2.to_node == v

/-- Neighbour expansion of `dijkstra_safest_path` (graph_utils.py,
lines 83-107), with `visited1` the visited set already containing the
current node. -/
def expandEntry (edges : EdgeList) (nodes : NodeList) (visited1 : List String)
    (e : DEntry) : List DEntry :=
  (getConnectedNodes edges e.node).filterMap fun nb =>
    if nb.1 ∈ visited1 then none
    else
      let segRisk := (nb.2 + getNodeRisk nodes nb.1) / 2
      let eid := ((firstMatch edges e.node nb.1).map Prod.fst).getD (e.node ++ "_" ++ nb.1)
      some { risk := e.risk + segRisk
             node := nb.1
             path := e.path ++ [nb.1]
             segs := e.segs ++ [⟨e.node, nb.1, eid, round3q segRisk⟩] }

/-- The main loop of `dijkstra_safest_path` (graph_utils.py, lines 69-109);
the fuel is the `max_iterations` bound, decremented once per pop. -/
def dijkstraGo (edges : EdgeList) (nodes : NodeList) (endNode : String) :
    ℕ → List DEntry → List String → Option PathResult
  | 0, _, _ => none
  | fuel + 1, heap, visited =>
    match popMin heap with
    | none => none
    | some (e, rest) =>
      if e.node ∈ visited then dijkstraGo edges nodes endNode fuel rest visited
      else if e.node = endNode then some (e.path, round3q e.risk, e.segs)
      else
        dijkstraGo edges nodes endNode fuel
          (rest ++ expandEntry edges nodes (e.node :: visited) e)
          (e.node :: visited)

/-- `GraphUtils.dijkstra_safest_path` (graph_utils.py, lines 34-109). -/
def dijkstraSafestPath (edges : EdgeList) (nodes : NodeList)
    (startNode endNode : String) : Option PathResult :=
  if startNode = endNode then some ([startNode], 0, [])
  else dijkstraGo edges nodes endNode 1000 [⟨0, startNode, [startNode], []⟩] []

/-- Insert an id into the blocked set (`blocked_edges.add`). -/
def blockAdd (bl : List String) (eid : String) : List String :=
  if eid ∈ bl then bl else bl ++ [eid]

/-- Edge-blocking bookkeeping after a found path (graph_utils.py,
lines 152-159): for each segment, the first edge in the restored dict
joining its endpoints is blocked. -/
def blockSegs (edgesR : EdgeList) (bl : List String) : List RouteSeg → List String
  | [] => bl
  | s :: rest =>
    match firstMatch edgesR s.from_node s.to_node with
    | some (eid, _) => blockSegs edgesR (blockAdd bl eid) rest
    | none => blockSegs edgesR bl rest

/-- The iteration of `find_k_safest_paths` (graph_utils.py, lines 135-161).
Deleting the blocked edges and re-adding them afterwards moves them to the
end of the dict, which is reflected in the evolving `EdgeList` order.
(Python iterates the `blocked_edges` set in unspecified order when
restoring; the order chosen here keeps their original relative order —
every property proved below holds for any restore order.) -/
def findKGo (nodes : NodeList) (startNode endNode : String) :
    ℕ → EdgeList → List String → List PathResult → List PathResult
  | 0, _, _, acc => acc
  | k + 1, edgesO, blocked, acc =>
    let d := edgesO.filter fun p => p.1 ∉ blocked
    let edgesR := d ++ edgesO.filter fun p => p.1 ∈ blocked
    match dijkstraSafestPath d nodes startNode endNode with
    | none => acc
    | some r =>
        findKGo nodes startNode endNode k edgesR (blockSegs edgesR blocked r.2.2)
          (acc ++ [r])

/-- Insertion into a list sorted by ascending total risk (`sorted(paths,
key=lambda x: x[1])`, stable). -/
def insertByRisk (x : PathResult) : List PathResult → List PathResult
  | [] => [x]
  | y :: ys => if x.2.1 ≤ y.2.1 then x :: y :: ys else y :: insertByRisk x ys

/-- Stable sort by ascending total risk. -/
def sortByRisk : List PathResult → List PathResult
  | [] => []
  | x :: xs => insertByRisk x (sortByRisk xs)

/-- `GraphUtils.find_k_safest_paths` (graph_utils.py, lines 111-163). -/
def findKSafestPaths (edges : EdgeList) (nodes : NodeList)
    (startNode endNode : String) (k : ℕ) : List PathResult :=
  sortByRisk (findKGo nodes startNode endNode k edges [] [])

/-- Every recorded segment's `edge_id` is the first edge in the given dict
joining the segment's endpoints. -/
def SegOK (edges : EdgeList) (segs : List RouteSeg) : Prop :=
  ∀ s ∈ segs, ∃ ed, firstMatch edges s.from_node s.to_node = some (s.edge_id, ed)

/-- Two search results share no recorded edge id. -/
def IdsDisjoint (p q : PathResult) : Prop :=
  ∀ s ∈ p.2.2, ∀ t ∈ q.2.2, s.edge_id ≠ t.edge_id

/-- A running-minimum state is a minimum of a candidate list (first-wins tie
break is irrelevant to this specification). -/
def MinSt {α : Type} (st : Option (ℝ × α)) (cands : List (ℝ × α)) : Prop :=
  match st with
  | none => cands = []
  | some (m, c) => (m, c) ∈ cands ∧ ∀ x ∈ cands, m ≤ x.1

noncomputable section

/-- All `(distance, incident)` pairs scanned by `_calculate_route_risk`, in
scan order. -/
def riskCands (coords : List (ℝ × ℝ)) (incidents : List Incident) :
    List (ℝ × Incident) :=
  coords.flatMap fun c =>
    incidents.map fun i => (haversineKm c.2 c.1 i.latitude i.longitude, i)

/-- All `(distance, zone)` pairs scanned by `get_closest_threat_to_route`. -/
def zoneCands (zones : List ThreatZone) (coords : List (ℝ × ℝ)) :
    List (ℝ × ThreatZone) :=
  (segPairs coords).flatMap fun p => zones.map fun z => (segDist z p, z)

/-- A MEDIUM incident at the origin (counterexample input). -/
def incT1 : Incident := ⟨some "T1", 0, 0, "MEDIUM", 1/2, none⟩

/-- The MEDIUM threat zone the avoidance subsystem would build from `incT1`
(radius 0.8 km). -/
def zoneT1 : ThreatZone := createFromIncident "T1" 0 0 "MEDIUM" (1/2) ""

/-- A route running 0.003° east to 0.003° west of the origin along the
equator: each vertex is ≈ 0.334 km from `incT1`, yet the segment passes
through the zone centre. -/
def routeT1 : OsrmRoute := ⟨⟨[(0.003, 0), (-0.003, 0)]⟩, 100, 1⟩

/-- A provider that always returns `routeT1`. -/
def provT1 : Provider := fun _ _ _ _ _ _ => [routeT1]

/-- A CRITICAL incident at the origin (counterexample input). -/
def incC2 : Incident := ⟨some "T2", 0, 0, "CRITICAL", 1/2, none⟩

/-- A single-vertex geometry 0.018° east of the origin: its haversine
distance to the origin is 0.6371·π ≈ 2.0015 km. -/
def geoC3 : Geo := ⟨[(0.018, 0)]⟩

/-- An incident at the origin (counterexample input). -/
def incC3 : Incident := ⟨some "I3", 0, 0, "HIGH", 9/10, none⟩

/-- A 50 km zone centred at latitude 80°, longitude 1° (counterexample
input for the segment-circle test). -/
def zoneC5 : ThreatZone := ⟨"Z5", 80, 1, 50, "HIGH", 1/2, ""⟩

/-- A unit zone at the origin. -/
def zoneC6 : ThreatZone := ⟨"Z6", 0, 0, 1, "HIGH", 1/2, ""⟩

/-- A request with start and end at the origin. -/
def reqW : RouteReq := ⟨0, 0, 0, 0⟩

/-- A raw incident at the origin. -/
def rawW : RawIncident := ⟨some "I7", some 0, some 0, some "HIGH", some (9/10), none⟩

/-- A candidate route with its single vertex exactly at `rawW`. -/
def routeW : OsrmRoute := ⟨⟨[(0, 0)]⟩, 1, 1⟩

/-- A provider that returns no alternatives. -/
def provEmpty : Provider := fun _ _ _ _ _ _ => []

/-- A route with an empty coordinate list. -/
def emptyRoute : OsrmRoute := ⟨⟨[]⟩, 1, 1⟩

/-- The sanitized form of `rawW` as produced by the nearby-threat filter. -/
def incW : Incident := ⟨some "I7", 0, 0, "HIGH", 9/10, none⟩

/-- A raw incident lacking a threat level. -/
def rawNoLevel : RawIncident := ⟨some "I10", some 1, some 2, none, none, none⟩

end

/-- Witness graph: a single edge from A to B. -/
def wEdges : EdgeList := [("e1", ⟨"A", "B", 1/2⟩)]

/-- Witness node risks. -/
def wNodes : NodeList := [("A", 0), ("B", 0)]

-- ===================== THEOREMS =====================

lemma mem_detourAttempts_iff (threats : List Incident) (a : ℝ × ℝ × ℝ × ℝ) :
    a ∈ detourAttempts threats ↔
      ∃ t ∈ threats, ∃ e ∈ clearancesList, ∃ b ∈ bearingsList,
        a = (t.latitude, t.longitude, b,
          detourRadius (strUpper (levelOrMedium t.threat_level)) + 0.05 + e) := by
  simp only [detourAttempts, List.mem_flatMap, List.mem_map]
  constructor
  · rintro ⟨t, ht, e, he, b, hb, rfl⟩
    exact ⟨t, ht, e, he, b, hb, rfl⟩
  · rintro ⟨t, ht, e, he, b, hb, rfl⟩
    exact ⟨t, ht, e, he, b, hb, rfl⟩

/-- C2 counterexample: with a CRITICAL threat at the origin, the detour
synthesizer's very first candidate uses offset distance 1.45 km from the
zone centre, which is not `1.5 + 0.05 + e` for any clearance `e` —
the synthesizer does not use the CRITICAL radius 1.5 of the section-3
table. -/
theorem C2_counterexample :
    ((0 : ℝ), (0 : ℝ), (0 : ℝ), (1.45 : ℝ)) ∈ detourAttempts [incC2] ∧
      ∀ e ∈ clearancesList, (1.45 : ℝ) ≠ 1.5 + 0.05 + e := by
  constructor
  · refine (mem_detourAttempts_iff _ _).mpr ⟨incC2, by simp, 0.2, by simp [clearancesList],
      0, by simp [bearingsList], ?_⟩
    have h1 : strUpper (levelOrMedium "CRITICAL") = "CRITICAL" := by decide
    simp only [incC2, h1, detourRadius]
    norm_num
  · intro e he
    simp only [clearancesList, List.mem_cons, List.not_mem_nil, or_false] at he
    rcases he with rfl | rfl | rfl <;> norm_num

/-- C2 (amended): the detour synthesizer uses its own radius table
(CRITICAL = 1.2, HIGH = 1.0, MEDIUM = 0.6, LOW = 0.3, default 0.6), and every
candidate waypoint attempt uses offset distance `radius + 0.05 + clearance`
for a clearance in {0.2, 0.5, 1.0}, at one of the 8 compass bearings
{0, 45, ..., 315}, and conversely every such combination is attempted. -/
theorem C2_amended :
    detourRadius "CRITICAL" = 1.2 ∧ detourRadius "HIGH" = 1 ∧
    detourRadius "MEDIUM" = 0.6 ∧ detourRadius "LOW" = 0.3 ∧
    clearancesList = [0.2, 0.5, 1.0] ∧
    bearingsList = [0, 45, 90, 135, 180, 225, 270, 315] ∧
    ∀ (threats : List Incident) (a : ℝ × ℝ × ℝ × ℝ),
      a ∈ detourAttempts threats ↔
        ∃ t ∈ threats, ∃ e ∈ clearancesList, ∃ b ∈ bearingsList,
          a = (t.latitude, t.longitude, b,
            detourRadius (strUpper (levelOrMedium t.threat_level)) + 0.05 + e) :=
  ⟨by simp [detourRadius], by simp [detourRadius], by simp [detourRadius],
   by simp [detourRadius], rfl, rfl, mem_detourAttempts_iff⟩

/-- C10: an incident whose (upper-cased) threat level is unknown gets the
MEDIUM radius 0.8 km, and an incident record with no threat level at all is
ingested with level MEDIUM (radius 0.8) rather than rejected. -/
theorem C10_default_radius_and_medium :
    (∀ (iid : String) (lat lng score : ℝ) (nm lvl : String),
        strUpper lvl ∉ (["CRITICAL", "HIGH", "MEDIUM", "LOW"] : List String) →
        (createFromIncident iid lat lng lvl score nm).radius_km = 0.8) ∧
    (∀ (incs : List RawIncident) (inc : RawIncident) (lat lng : ℝ),
        inc ∈ incs → inc.threat_level = none → inc.latitude = some lat →
        inc.longitude = some lng →
        ∃ z ∈ loadFromIncidents incs, z.threat_level = "MEDIUM" ∧
          z.radius_km = 0.8 ∧ z.latitude = lat ∧ z.longitude = lng) := by
  constructor
  · intro iid lat lng score nm lvl h
    simp only [List.mem_cons, List.not_mem_nil, or_false, not_or] at h
    obtain ⟨h1, h2, h3, h4⟩ := h
    simp [createFromIncident, radiusForLevel, h1, h2, h3, h4]
  · intro incs inc lat lng hm hlev hla hlo
    refine ⟨createFromIncident (inc.incident_id.getD "THREAT_UNKNOWN") lat lng
      "MEDIUM" (inc.threat_score.getD 0.5) (inc.behavior_summary.getD ""),
      ?_, rfl, ?_, rfl, rfl⟩
    · exact List.mem_filterMap.mpr ⟨inc, hm, by simp [hla, hlo, hlev]⟩
    · simp [createFromIncident, radiusForLevel, strUpper]

/-- C10 witness at a concrete unknown level and a concrete record missing
its threat level. -/
theorem C10_witness :
    (strUpper "banana" ∉ (["CRITICAL", "HIGH", "MEDIUM", "LOW"] : List String)) ∧
    (createFromIncident "X" 1 2 "banana" (1/2) "").radius_km = 0.8 ∧
    (rawNoLevel ∈ [rawNoLevel] ∧ rawNoLevel.threat_level = none) ∧
    ∃ z ∈ loadFromIncidents [rawNoLevel], z.threat_level = "MEDIUM" ∧
      z.radius_km = 0.8 ∧ z.latitude = 1 ∧ z.longitude = 2 :=
  ⟨by decide,
   C10_default_radius_and_medium.1 "X" 1 2 (1/2) "" "banana" (by decide),
   ⟨by simp, rfl⟩,
   C10_default_radius_and_medium.2 [rawNoLevel] rawNoLevel 1 2 (by simp) rfl rfl rfl⟩

/-- C6 counterexample: with a non-empty store but a single-vertex polyline,
`get_closest_threat_to_route` returns `None` — the claim that `null` occurs
only for an empty store is false. -/
theorem C6_counterexample :
    getClosestThreatToRoute [zoneC6] [((0 : ℝ), 0)] = none ∧
      ([zoneC6] : List ThreatZone) ≠ [] := by
  exact ⟨rfl, by simp⟩

lemma round3_eq_of_bounds (x : ℝ) (n : ℤ) (h1 : (n : ℝ) ≤ 1000 * x + 1 / 2)
    (h2 : 1000 * x + 1 / 2 < (n : ℝ) + 1) : round3 x = (n : ℝ) / 1000 := by
  rw [round3, round_eq, Int.floor_eq_iff.mpr ⟨h1, h2⟩]

lemma haversineKm_self (lat lng : ℝ) : haversineKm lat lng lat lng = 0 := by
  simp [haversineKm, Real.arcsin_zero]

lemma haversineKm_equator (x : ℝ) (h0 : 0 ≤ x) (h180 : x ≤ 180) :
    haversineKm 0 x 0 0 = 6371 * (x * π / 180) := by
  have hq : 0 ≤ x * π / 360 := by positivity
  have hq2 : x * π / 360 ≤ π / 2 := by nlinarith [Real.pi_pos]
  have hsin : Real.sin (-(x * π / 180) / 2) ^ 2 = Real.sin (x * π / 360) ^ 2 := by
    have : -(x * π / 180) / 2 = -(x * π / 360) := by ring
    rw [this, Real.sin_neg]
    ring
  have hs0 : 0 ≤ Real.sin (x * π / 360) :=
    Real.sin_nonneg_of_nonneg_of_le_pi hq (by nlinarith [Real.pi_pos])
  simp only [haversineKm, radiansR]
  rw [show ((0 : ℝ) * π / 180 - 0 * π / 180) / 2 = 0 by ring,
    show ((0 : ℝ) * π / 180 - x * π / 180) / 2 = -(x * π / 360) by ring,
    show (0 : ℝ) * π / 180 = 0 by ring, Real.sin_zero, Real.cos_zero, Real.sin_neg]
  rw [show ((0 : ℝ) ^ 2 + 1 * 1 * (-Real.sin (x * π / 360)) ^ 2) =
      Real.sin (x * π / 360) ^ 2 by ring]
  rw [Real.sqrt_sq_eq_abs, abs_of_nonneg hs0,
    Real.arcsin_sin (by linarith [Real.pi_pos]) hq2]
  ring

lemma riskFinish_fst (st : Option (ℝ × Incident)) : (riskFinish st).1 = true := by
  rcases st with _ | ⟨m, c⟩ <;> simp [riskFinish]

lemma minSt_update {α : Type} {st : Option (ℝ × α)} {cs : List (ℝ × α)}
    (h : MinSt st cs) (d : ℝ) (x : α) :
    MinSt (minUpdate st d x) (cs ++ [(d, x)]) := by
  rcases st with _ | ⟨m, w⟩
  · simp only [MinSt] at h
    subst h
    simp [minUpdate, MinSt]
  · obtain ⟨hmem, hmin⟩ := h
    simp only [minUpdate]
    split
    · refine ⟨List.mem_append_right _ (by simp), ?_⟩
      intro y hy
      rcases List.mem_append.mp hy with hy | hy
      · linarith [hmin y hy]
      · simp only [List.mem_singleton] at hy
        simp [hy]
    · rename_i hlt
      refine ⟨List.mem_append_left _ hmem, ?_⟩
      intro y hy
      rcases List.mem_append.mp hy with hy | hy
      · exact hmin y hy
      · simp only [List.mem_singleton] at hy
        rw [hy]
        simp only [not_lt] at hlt
        simpa using hlt

lemma scanInc_safe {lat lng : ℝ} {incs : List Incident}
    (h : ∀ i ∈ incs, ¬ haversineKm lat lng i.latitude i.longitude ≤ 0.05) :
    ∀ st cs, MinSt st cs →
      ∃ st2, riskScanIncidents lat lng st incs = Sum.inl st2 ∧
        MinSt st2 (cs ++ incs.map fun i =>
          (haversineKm lat lng i.latitude i.longitude, i)) := by
  induction incs with
  | nil => intro st cs hm; exact ⟨st, rfl, by simpa using hm⟩
  | cons i is ih =>
    intro st cs hm
    have hi := h i (List.mem_cons_self _ _)
    have hrest : ∀ j ∈ is, ¬ haversineKm lat lng j.latitude j.longitude ≤ 0.05 :=
      fun j hj => h j (List.mem_cons_of_mem _ hj)
    simp only [riskScanIncidents]
    rw [if_neg hi]
    obtain ⟨st2, heq, hm2⟩ := ih hrest _ _ (minSt_update hm
      (haversineKm lat lng i.latitude i.longitude) i)
    refine ⟨st2, heq, ?_⟩
    simpa [List.append_assoc] using hm2

lemma scanInc_inr_payload {lat lng : ℝ} {incs : List Incident}
    {st : Option (ℝ × Incident)} {out : Option String × ℝ}
    (heq : riskScanIncidents lat lng st incs = Sum.inr out) :
    ∃ i ∈ incs, haversineKm lat lng i.latitude i.longitude ≤ 0.05 ∧
      out = (i.incident_id, round4 (haversineKm lat lng i.latitude i.longitude)) := by
  induction incs generalizing st with
  | nil => simp [riskScanIncidents] at heq
  | cons i is ih =>
    simp only [riskScanIncidents] at heq
    split at heq
    · obtain rfl : (i.incident_id, round4 (haversineKm lat lng i.latitude i.longitude)) = out :=
        by injection heq
      exact ⟨i, List.mem_cons_self _ _, by assumption, rfl⟩
    · obtain ⟨j, hj, hle, hout⟩ := ih heq
      exact ⟨j, List.mem_cons_of_mem _ hj, hle, hout⟩

lemma scanInc_unsafe {lat lng : ℝ} {incs : List Incident} (i0 : Incident)
    (hi0 : i0 ∈ incs) (hle : haversineKm lat lng i0.latitude i0.longitude ≤ 0.05) :
    ∀ st, ∃ out, riskScanIncidents lat lng st incs = Sum.inr out := by
  induction incs with
  | nil => cases hi0
  | cons i is ih =>
    intro st
    by_cases hi : haversineKm lat lng i.latitude i.longitude ≤ 0.05
    · exact ⟨_, by simp only [riskScanIncidents]; rw [if_pos hi]⟩
    · rcases List.mem_cons.mp hi0 with rfl | hmem
      · exact absurd hle hi
      · obtain ⟨out, hout⟩ := ih hmem (minUpdate st (haversineKm lat lng i.latitude i.longitude) i)
        exact ⟨out, by simp only [riskScanIncidents]; rw [if_neg hi]; exact hout⟩

lemma scanCoords_safe {incs : List Incident} {coords : List (ℝ × ℝ)}
    (h : ∀ c ∈ coords, ∀ i ∈ incs,
      ¬ haversineKm c.2 c.1 i.latitude i.longitude ≤ 0.05) :
    ∀ st cs, MinSt st cs →
      ∃ st2, riskScanCoords incs st coords = riskFinish st2 ∧
        MinSt st2 (cs ++ riskCands coords incs) := by
  induction coords with
  | nil => intro st cs hm; exact ⟨st, rfl, by simpa [riskCands]⟩
  | cons c rest ih =>
    intro st cs hm
    obtain ⟨lng, lat⟩ := c
    have hc := h (lng, lat) (List.mem_cons_self _ _)
    obtain ⟨st2, heq, hm2⟩ := scanInc_safe hc st cs hm
    have hrest : ∀ c ∈ rest, ∀ i ∈ incs,
        ¬ haversineKm c.2 c.1 i.latitude i.longitude ≤ 0.05 :=
      fun c hcr => h c (List.mem_cons_of_mem _ hcr)
    simp only [riskScanCoords, heq]
    obtain ⟨st3, heq3, hm3⟩ := ih hrest st2 _ hm2
    refine ⟨st3, heq3, ?_⟩
    simpa [riskCands, List.append_assoc] using hm3

lemma scanCoords_false_payload {incs : List Incident} {coords : List (ℝ × ℝ)} :
    ∀ st, (riskScanCoords incs st coords).1 = false →
      ∃ c ∈ coords, ∃ i ∈ incs,
        haversineKm c.2 c.1 i.latitude i.longitude ≤ 0.05 ∧
        riskScanCoords incs st coords = (false, 0, RiskInfo.intersectionPoint
          i.incident_id (round4 (haversineKm c.2 c.1 i.latitude i.longitude))) := by
  induction coords with
  | nil =>
    intro st hfalse
    rw [show riskScanCoords incs st [] = riskFinish st from rfl, riskFinish_fst] at hfalse
    cases hfalse
  | cons c rest ih =>
    intro st hfalse
    obtain ⟨lng, lat⟩ := c
    rcases hscan : riskScanIncidents lat lng st incs with st2 | out
    · simp only [riskScanCoords, hscan] at hfalse ⊢
      obtain ⟨c2, hc2, i, hi, hle, heq⟩ := ih st2 hfalse
      exact ⟨c2, List.mem_cons_of_mem _ hc2, i, hi, hle, heq⟩
    · obtain ⟨i, hi, hle, hout⟩ := scanInc_inr_payload hscan
      refine ⟨(lng, lat), List.mem_cons_self _ _, i, hi, hle, ?_⟩
      simp only [riskScanCoords, hscan, hout]

lemma scanCoords_exists_false {incs : List Incident} {coords : List (ℝ × ℝ)}
    (c0 : ℝ × ℝ) (i0 : Incident) (hc : c0 ∈ coords) (hi : i0 ∈ incs)
    (hle : haversineKm c0.2 c0.1 i0.latitude i0.longitude ≤ 0.05) :
    ∀ st, (riskScanCoords incs st coords).1 = false := by
  induction coords with
  | nil => cases hc
  | cons c rest ih =>
    intro st
    obtain ⟨lng, lat⟩ := c
    rcases List.mem_cons.mp hc with rfl | hmem
    · obtain ⟨out, hout⟩ := scanInc_unsafe i0 hi hle st
      simp [riskScanCoords, hout]
    · rcases hscan : riskScanIncidents lat lng st incs with st2 | out
      · simp only [riskScanCoords, hscan]
        exact ih hmem st2
      · simp [riskScanCoords, hscan]

lemma calcRouteRisk_false_iff (geo : Geo) (incs : List Incident) :
    (calcRouteRisk geo incs).1 = false ↔
      ∃ c ∈ geo.coordinates, ∃ i ∈ incs,
        haversineKm c.2 c.1 i.latitude i.longitude ≤ 0.05 := by
  by_cases hempty : geo.coordinates.isEmpty
  · rw [List.isEmpty_iff] at hempty
    simp [calcRouteRisk, hempty]
  · constructor
    · intro hfalse
      simp only [calcRouteRisk, if_neg hempty] at hfalse
      obtain ⟨c, hc, i, hi, hle, _⟩ := scanCoords_false_payload none hfalse
      exact ⟨c, hc, i, hi, hle⟩
    · rintro ⟨c, hc, i, hi, hle⟩
      simp only [calcRouteRisk, if_neg hempty]
      exact scanCoords_exists_false c i hc hi hle none

lemma calcRouteRisk_true_iff (geo : Geo) (incs : List Incident) :
    (calcRouteRisk geo incs).1 = true ↔
      ∀ c ∈ geo.coordinates, ∀ i ∈ incs,
        ¬ haversineKm c.2 c.1 i.latitude i.longitude ≤ 0.05 := by
  rw [← Bool.not_eq_false, not_iff_comm, calcRouteRisk_false_iff]
  push_neg
  simp

lemma riskFinish_some_score (m : ℝ) (c : Incident) :
    (riskFinish (some (m, c))).2.1 =
      round3 (if 3 ≤ round3 m then 1 else max 0.1 (round3 m / 3)) := by
  simp [riskFinish]

lemma calcRouteRisk_safe_score {geo : Geo} {incs : List Incident} {m : ℝ}
    {c : Incident}
    (h : ∀ cd ∈ geo.coordinates, ∀ i ∈ incs,
      ¬ haversineKm cd.2 cd.1 i.latitude i.longitude ≤ 0.05)
    (hmem : (m, c) ∈ riskCands geo.coordinates incs)
    (hmin : ∀ x ∈ riskCands geo.coordinates incs, m ≤ x.1) :
    (calcRouteRisk geo incs).2.1 =
      round3 (if 3 ≤ round3 m then 1 else max 0.1 (round3 m / 3)) := by
  have hempty : geo.coordinates.isEmpty ≠ true := by
    intro hh
    rw [List.isEmpty_iff] at hh
    rw [hh] at hmem
    simp [riskCands] at hmem
  simp only [calcRouteRisk, if_neg hempty]
  obtain ⟨st2, heq, hm2⟩ := scanCoords_safe h none [] (by simp [MinSt])
  rw [heq]
  rcases st2 with _ | ⟨m0, c0⟩
  · simp only [MinSt, List.nil_append] at hm2
    rw [hm2] at hmem
    cases hmem
  · simp only [MinSt, List.nil_append] at hm2
    have hm0 : m0 = m :=
      le_antisymm (hm2.2 (m, c) hmem) (hmin (m0, c0) hm2.1)
    rw [riskFinish_some_score, hm0]

lemma calcRouteRisk_safe_score_nil {geo : Geo} {incs : List Incident}
    (hcands : riskCands geo.coordinates incs = []) :
    (calcRouteRisk geo incs).2.1 = 1 := by
  have h : ∀ cd ∈ geo.coordinates, ∀ i ∈ incs,
      ¬ haversineKm cd.2 cd.1 i.latitude i.longitude ≤ 0.05 := by
    intro cd hcd i hi _
    have : (haversineKm cd.2 cd.1 i.latitude i.longitude, i) ∈
        riskCands geo.coordinates incs := by
      simp only [riskCands, List.mem_flatMap, List.mem_map]
      exact ⟨cd, hcd, i, hi, rfl⟩
    rw [hcands] at this
    cases this
  by_cases hempty : geo.coordinates.isEmpty
  · rw [List.isEmpty_iff] at hempty
    simp [calcRouteRisk, hempty]
  · simp only [calcRouteRisk, if_neg hempty]
    obtain ⟨st2, heq, hm2⟩ := scanCoords_safe h none [] (by simp [MinSt])
    rw [heq]
    rcases st2 with _ | ⟨m0, c0⟩
    · simp only [riskFinish]
      rw [show round3 1 = 1 by rw [round3, round_eq]; norm_num]
    · simp only [MinSt, List.nil_append] at hm2
      rw [hcands] at hm2
      cases hm2.1

/-- C3 counterexample: for a single-vertex route ≈ 2.0015 km from the only
incident, the code reports safety score 0.667 — the rounded value of
`max(0.1, round3(closest)/3)` — which matches neither `max(0.1, closest/3)`
for the raw closest distance nor for the 3-decimal-rounded one.  The claim's
score formula omits the two roundings performed by `_calculate_route_risk`. -/
theorem C3_counterexample :
    (calcRouteRisk geoC3 [incC3]).1 = true ∧
    (calcRouteRisk geoC3 [incC3]).2.1 = 0.667 ∧
    (0.667 : ℝ) ≠ max 0.1 (round3 (haversineKm 0 0.018 0 0) / 3) ∧
    (0.667 : ℝ) ≠ max 0.1 (haversineKm 0 0.018 0 0 / 3) := by
  have hd : haversineKm 0 0.018 0 0 = 0.6371 * π := by
    rw [haversineKm_equator 0.018 (by norm_num) (by norm_num)]
    ring
  have hgt : (2.0015 : ℝ) < haversineKm 0 0.018 0 0 := by
    rw [hd]; nlinarith [Real.pi_gt_d6]
  have hlt : haversineKm 0 0.018 0 0 < 2.0016 := by
    rw [hd]; nlinarith [Real.pi_lt_d6]
  have hr3 : round3 (haversineKm 0 0.018 0 0) = 2.002 := by
    have h := round3_eq_of_bounds (haversineKm 0 0.018 0 0) 2002
      (by push_cast; nlinarith) (by push_cast; nlinarith)
    rw [h]; norm_num
  have hsafe : ∀ cd ∈ geoC3.coordinates, ∀ i ∈ ([incC3] : List Incident),
      ¬ haversineKm cd.2 cd.1 i.latitude i.longitude ≤ 0.05 := by
    intro cd hcd i hi
    simp only [geoC3, List.mem_singleton] at hcd
    simp only [List.mem_singleton] at hi
    subst hcd; subst hi
    show ¬ haversineKm 0 0.018 incC3.latitude incC3.longitude ≤ 0.05
    have : incC3.latitude = 0 ∧ incC3.longitude = 0 := ⟨rfl, rfl⟩
    rw [this.1, this.2]
    nlinarith
  have hmem : (haversineKm 0 0.018 0 0, incC3) ∈
      riskCands geoC3.coordinates [incC3] := by
    simp only [riskCands, geoC3, List.mem_flatMap, List.mem_map]
    exact ⟨(0.018, 0), by simp, incC3, by simp, rfl⟩
  have hmin : ∀ x ∈ riskCands geoC3.coordinates [incC3],
      haversineKm 0 0.018 0 0 ≤ x.1 := by
    intro x hx
    simp only [riskCands, geoC3, List.mem_flatMap, List.mem_map] at hx
    obtain ⟨cd, hcd, i, hi, rfl⟩ := hx
    simp only [List.mem_singleton] at hcd hi
    subst hcd; subst hi
    exact le_refl _
  refine ⟨?_, ?_, ?_, ?_⟩
  · rw [calcRouteRisk_true_iff]
    exact hsafe
  · rw [calcRouteRisk_safe_score hsafe hmem hmin, hr3]
    rw [if_neg (by norm_num)]
    rw [show max (0.1 : ℝ) (2.002 / 3) = 2.002 / 3 by rw [max_eq_right]; norm_num]
    rw [round3_eq_of_bounds (2.002 / 3) 667 (by norm_num) (by norm_num)]
    norm_num
  · rw [hr3]
    rw [show max (0.1 : ℝ) (2.002 / 3) = 2.002 / 3 by rw [max_eq_right]; norm_num]
    norm_num
  · rw [show max (0.1 : ℝ) (haversineKm 0 0.018 0 0 / 3) =
        haversineKm 0 0.018 0 0 / 3 by rw [max_eq_right]; nlinarith]
    intro hcontra
    nlinarith

/-- C3 (amended): under the point-proximity policy a route is unsafe, with
reason `threat_intersection_point` carrying an offending incident's id and
its 4-decimal-rounded distance and with score 0.0, exactly when some vertex
is within haversine distance 0.05 km of some incident; otherwise it is safe
and the score is 1.0 when no vertex/incident pair was scanned, else
`round3(max(0.1, round3(closest)/3))` when the 3-decimal-rounded closest
scanned distance is below 3.0 km and `round3(1.0) = 1.0` otherwise. -/
theorem C3_point_policy_characterised (geo : Geo) (incs : List Incident) :
    ((calcRouteRisk geo incs).1 = false ↔
      ∃ c ∈ geo.coordinates, ∃ i ∈ incs,
        haversineKm c.2 c.1 i.latitude i.longitude ≤ 0.05) ∧
    ((calcRouteRisk geo incs).1 = false →
      ∃ c ∈ geo.coordinates, ∃ i ∈ incs,
        haversineKm c.2 c.1 i.latitude i.longitude ≤ 0.05 ∧
        calcRouteRisk geo incs = (false, 0, RiskInfo.intersectionPoint
          i.incident_id (round4 (haversineKm c.2 c.1 i.latitude i.longitude)))) ∧
    ((calcRouteRisk geo incs).1 = true →
      (riskCands geo.coordinates incs = [] → (calcRouteRisk geo incs).2.1 = 1) ∧
      ∀ m c, (m, c) ∈ riskCands geo.coordinates incs →
        (∀ x ∈ riskCands geo.coordinates incs, m ≤ x.1) →
        (calcRouteRisk geo incs).2.1 =
          round3 (if 3 ≤ round3 m then 1 else max 0.1 (round3 m / 3))) := by
  refine ⟨calcRouteRisk_false_iff geo incs, ?_, ?_⟩
  · intro hfalse
    by_cases hempty : geo.coordinates.isEmpty
    · rw [List.isEmpty_iff] at hempty
      simp [calcRouteRisk, hempty] at hfalse
    · simp only [calcRouteRisk, if_neg hempty] at hfalse ⊢
      obtain ⟨c, hc, i, hi, hle, heq⟩ := scanCoords_false_payload none hfalse
      exact ⟨c, hc, i, hi, hle, heq⟩
  · intro htrue
    have h := (calcRouteRisk_true_iff geo incs).mp htrue
    exact ⟨fun hcands => calcRouteRisk_safe_score_nil hcands,
      fun m c hmem hmin => calcRouteRisk_safe_score h hmem hmin⟩

/-- C3 witness: the unsafe branch at a vertex coinciding with an incident,
and the safe branch at the concrete 2.0015 km configuration. -/
theorem C3_witness :
    (calcRouteRisk ⟨[(0, 0)]⟩ [incT1]).1 = false ∧
    (calcRouteRisk geoC3 [incC3]).1 = true ∧
    (calcRouteRisk geoC3 [incC3]).2.1 =
      round3 (if 3 ≤ round3 (haversineKm 0 0.018 0 0) then 1
        else max 0.1 (round3 (haversineKm 0 0.018 0 0) / 3)) := by
  have hd : haversineKm 0 0.018 0 0 = 0.6371 * π := by
    rw [haversineKm_equator 0.018 (by norm_num) (by norm_num)]
    ring
  have hgt : (2.0015 : ℝ) < haversineKm 0 0.018 0 0 := by
    rw [hd]; nlinarith [Real.pi_gt_d6]
  have hsafe : ∀ cd ∈ geoC3.coordinates, ∀ i ∈ ([incC3] : List Incident),
      ¬ haversineKm cd.2 cd.1 i.latitude i.longitude ≤ 0.05 := by
    intro cd hcd i hi
    simp only [geoC3, List.mem_singleton] at hcd
    simp only [List.mem_singleton] at hi
    subst hcd; subst hi
    show ¬ haversineKm 0 0.018 incC3.latitude incC3.longitude ≤ 0.05
    have h0 : incC3.latitude = 0 ∧ incC3.longitude = 0 := ⟨rfl, rfl⟩
    rw [h0.1, h0.2]
    nlinarith
  refine ⟨?_, ?_, ?_⟩
  · refine (C3_point_policy_characterised ⟨[(0, 0)]⟩ [incT1]).1.mpr
      ⟨(0, 0), by simp, incT1, by simp, ?_⟩
    have h0 : incT1.latitude = 0 ∧ incT1.longitude = 0 := ⟨rfl, rfl⟩
    rw [h0.1, h0.2, haversineKm_self]
    norm_num
  · rw [calcRouteRisk_true_iff]
    exact hsafe
  · refine ((C3_point_policy_characterised geoC3 [incC3]).2.2
      (by rw [calcRouteRisk_true_iff]; exact hsafe)).2
      (haversineKm 0 0.018 0 0) incC3 ?_ ?_
    · simp only [riskCands, geoC3, List.mem_flatMap, List.mem_map]
      exact ⟨(0.018, 0), by simp, incC3, by simp, rfl⟩
    · intro x hx
      simp only [riskCands, geoC3, List.mem_flatMap, List.mem_map] at hx
      obtain ⟨cd, hcd, i, hi, rfl⟩ := hx
      simp only [List.mem_singleton] at hcd hi
      subst hcd; subst hi
      exact le_refl _

lemma haversineKm_equator_abs (x : ℝ) (h180 : |x| ≤ 180) :
    haversineKm 0 x 0 0 = 6371 * (|x| * π / 180) := by
  have hq : 0 ≤ |x| * π / 360 := by positivity
  have hq2 : |x| * π / 360 ≤ π / 2 := by
    have := abs_nonneg x
    nlinarith [Real.pi_pos]
  have hs0 : 0 ≤ Real.sin (|x| * π / 360) :=
    Real.sin_nonneg_of_nonneg_of_le_pi hq (by nlinarith [Real.pi_pos])
  have hsq : Real.sin (-(x * π / 180) / 2) ^ 2 = Real.sin (|x| * π / 360) ^ 2 := by
    rcases abs_cases x with ⟨he, _⟩ | ⟨he, _⟩
    · rw [show -(x * π / 180) / 2 = -(x * π / 360) by ring, Real.sin_neg, he]
      ring
    · rw [show -(x * π / 180) / 2 = -x * π / 360 by ring, he]
  simp only [haversineKm, radiansR]
  rw [show ((0 : ℝ) * π / 180 - 0 * π / 180) / 2 = 0 by ring,
    show ((0 : ℝ) * π / 180 - x * π / 180) / 2 = -(x * π / 180) / 2 by ring,
    show (0 : ℝ) * π / 180 = 0 by ring, Real.sin_zero, Real.cos_zero]
  rw [show ((0 : ℝ) ^ 2 + 1 * 1 * Real.sin (-(x * π / 180) / 2) ^ 2) =
      Real.sin (-(x * π / 180) / 2) ^ 2 by ring, hsq]
  rw [Real.sqrt_sq_eq_abs, abs_of_nonneg hs0,
    Real.arcsin_sin (by linarith [Real.pi_pos]) hq2]
  ring

lemma detourScanAlts_eq (threats : List Incident) (alts : List OsrmRoute) :
    detourScanAlts threats alts =
      (alts.find? fun alt => (calcRouteRisk alt.geometry threats).1).map
        fun alt => (alt, calcRouteRisk alt.geometry threats) := by
  induction alts with
  | nil => rfl
  | cons a rest ih =>
    simp only [detourScanAlts, List.find?]
    by_cases h : (calcRouteRisk a.geometry threats).1
    · simp [h]
    · simp only [Bool.not_eq_true] at h
      simp [h, ih]

lemma detourScanBearings_eq (provider : Provider) (sLat sLng eLat eLng : ℝ)
    (threats : List Incident) (tLat tLng off : ℝ) (bs : List ℝ) :
    detourScanBearings provider sLat sLng eLat eLng threats tLat tLng off bs =
      ((bs.flatMap fun b =>
          provider sLat sLng (destinationPoint tLat tLng b off).1
            (destinationPoint tLat tLng b off).2 eLat eLng).find? fun alt =>
              (calcRouteRisk alt.geometry threats).1).map
        fun alt => (alt, calcRouteRisk alt.geometry threats) := by
  induction bs with
  | nil => rfl
  | cons b rest ih =>
    simp only [detourScanBearings, List.flatMap_cons, List.find?_append,
      detourScanAlts_eq]
    cases hfa : (provider sLat sLng (destinationPoint tLat tLng b off).1
        (destinationPoint tLat tLng b off).2 eLat eLng).find?
          fun alt => (calcRouteRisk alt.geometry threats).1 with
    | some a => simp [hfa]
    | none => simp [hfa, ih]

lemma detourScanClearances_eq (provider : Provider) (sLat sLng eLat eLng : ℝ)
    (threats : List Incident) (tLat tLng tRadius : ℝ) (es : List ℝ) :
    detourScanClearances provider sLat sLng eLat eLng threats tLat tLng tRadius es =
      ((es.flatMap fun e => bearingsList.flatMap fun b =>
          provider sLat sLng
            (destinationPoint tLat tLng b (tRadius + 0.05 + e)).1
            (destinationPoint tLat tLng b (tRadius + 0.05 + e)).2 eLat eLng).find?
              fun alt => (calcRouteRisk alt.geometry threats).1).map
        fun alt => (alt, calcRouteRisk alt.geometry threats) := by
  induction es with
  | nil => rfl
  | cons e rest ih =>
    simp only [detourScanClearances, List.flatMap_cons, List.find?_append,
      detourScanBearings_eq]
    cases hfa : (bearingsList.flatMap fun b =>
        provider sLat sLng
          (destinationPoint tLat tLng b (tRadius + 0.05 + e)).1
          (destinationPoint tLat tLng b (tRadius + 0.05 + e)).2 eLat eLng).find?
            fun alt => (calcRouteRisk alt.geometry threats).1 with
    | some a => simp [hfa]
    | none => simp [hfa, ih]

lemma detourScanThreats_eq (provider : Provider) (sLat sLng eLat eLng : ℝ)
    (threats : List Incident) (ts : List Incident) :
    detourScanThreats provider sLat sLng eLat eLng threats ts =
      ((ts.flatMap fun t => clearancesList.flatMap fun e =>
          bearingsList.flatMap fun b =>
            provider sLat sLng
              (destinationPoint t.latitude t.longitude b
                (detourRadius (strUpper (levelOrMedium t.threat_level)) + 0.05 + e)).1
              (destinationPoint t.latitude t.longitude b
                (detourRadius (strUpper (levelOrMedium t.threat_level)) + 0.05 + e)).2
              eLat eLng).find?
            fun alt => (calcRouteRisk alt.geometry threats).1).map
        fun alt => (alt, calcRouteRisk alt.geometry threats) := by
  induction ts with
  | nil => rfl
  | cons t rest ih =>
    simp only [detourScanThreats, List.flatMap_cons, List.find?_append,
      detourScanClearances_eq]
    cases hfa : (clearancesList.flatMap fun e => bearingsList.flatMap fun b =>
        provider sLat sLng
          (destinationPoint t.latitude t.longitude b
            (detourRadius (strUpper (levelOrMedium t.threat_level)) + 0.05 + e)).1
          (destinationPoint t.latitude t.longitude b
            (detourRadius (strUpper (levelOrMedium t.threat_level)) + 0.05 + e)).2
          eLat eLng).find?
          fun alt => (calcRouteRisk alt.geometry threats).1 with
    | some a => simp [hfa]
    | none => simp [hfa, ih]

lemma findDetour_eq (provider : Provider) (sLat sLng eLat eLng : ℝ)
    (threats : List Incident) :
    findDetour provider sLat sLng eLat eLng threats =
      ((flattenAlts provider sLat sLng eLat eLng threats).find?
          fun alt => (calcRouteRisk alt.geometry threats).1).map
        fun alt => (alt, calcRouteRisk alt.geometry threats) := by
  rw [findDetour, detourScanThreats_eq]
  congr 2
  rw [flattenAlts, detourAttempts]
  simp only [List.flatMap_assoc, List.flatMap_map]

lemma find?_flatMap_const {α β : Type} (l : List α) (r : β) (p : β → Bool)
    (hne : l ≠ []) (hp : p r = true) :
    (l.flatMap fun _ => [r]).find? p = some r := by
  cases l with
  | nil => exact absurd rfl hne
  | cons a rest => simp [List.flatMap_cons, List.find?, hp]

lemma zoneT1_fields : zoneT1.latitude = 0 ∧ zoneT1.longitude = 0 ∧
    zoneT1.radius_km = 0.8 ∧ zoneT1.threat_level = "MEDIUM" := by
  refine ⟨rfl, rfl, ?_, rfl⟩
  show radiusForLevel "MEDIUM" = 0.8
  simp [radiusForLevel, strUpper]

lemma routeT1_vertex_dist :
    haversineKm 0 0.003 0 0 = 6371 * (0.003 * π / 180) ∧
    haversineKm 0 (-0.003) 0 0 = 6371 * (0.003 * π / 180) := by
  constructor
  · rw [haversineKm_equator_abs 0.003 (by rw [abs_of_nonneg] <;> norm_num)]
    rw [abs_of_nonneg (by norm_num)]
  · rw [haversineKm_equator_abs (-0.003) (by rw [abs_of_nonpos] <;> norm_num)]
    rw [abs_of_nonpos (by norm_num)]
    norm_num

lemma routeT1_safe_by_point_policy :
    (calcRouteRisk routeT1.geometry [incT1]).1 = true := by
  rw [calcRouteRisk_true_iff]
  intro cd hcd i hi
  simp only [List.mem_singleton] at hi
  subst hi
  have h0 : incT1.latitude = 0 ∧ incT1.longitude = 0 := ⟨rfl, rfl⟩
  have hb : (0.33 : ℝ) < 6371 * (0.003 * π / 180) := by
    nlinarith [Real.pi_gt_d6]
  have hcd2 : cd = ((0.003 : ℝ), (0 : ℝ)) ∨ cd = ((-0.003 : ℝ), (0 : ℝ)) := by
    simpa [routeT1] using hcd
  rw [h0.1, h0.2]
  rcases hcd2 with rfl | rfl
  · show ¬ haversineKm 0 0.003 0 0 ≤ 0.05
    rw [routeT1_vertex_dist.1]
    linarith
  · show ¬ haversineKm 0 (-0.003) 0 0 ≤ 0.05
    rw [routeT1_vertex_dist.2]
    linarith

/-- C1 counterexample: with a MEDIUM incident at the origin and a provider
whose only alternative cuts straight through the incident's 0.8 km zone
(while keeping every vertex ≈ 0.334 km away from the incident point), the
detour search accepts that alternative — yet the strict circle-intersection
policy (policy 1, `route_intersects_any_threat` over CRITICAL/HIGH/MEDIUM
zones with the 0.1 km buffer) rejects it.  The detour search therefore does
not re-validate alternatives with policy 1. -/
lemma findDetour_T1 : findDetour provT1 0 0 0 0 [incT1] =
    some (routeT1, calcRouteRisk routeT1.geometry [incT1]) := by
  rw [findDetour_eq]
  have hne : detourAttempts [incT1] ≠ [] := by
    have hmem0 : (incT1.latitude, incT1.longitude, (0 : ℝ),
        detourRadius (strUpper (levelOrMedium incT1.threat_level)) + 0.05 + 0.2) ∈
        detourAttempts [incT1] :=
      (mem_detourAttempts_iff _ _).mpr ⟨incT1, by simp, 0.2,
        by simp [clearancesList], 0, by simp [bearingsList], rfl⟩
    exact List.ne_nil_of_mem hmem0
  have hflat : flattenAlts provT1 0 0 0 0 [incT1] =
      (detourAttempts [incT1]).flatMap fun _ => [routeT1] := rfl
  rw [hflat, find?_flatMap_const (detourAttempts [incT1]) routeT1
    (fun alt => (calcRouteRisk alt.geometry [incT1]).1) hne
    routeT1_safe_by_point_policy]
  rfl

theorem C1_counterexample :
    findDetour provT1 0 0 0 0 [incT1] =
      some (routeT1, calcRouteRisk routeT1.geometry [incT1]) ∧
    (calcRouteRisk routeT1.geometry [incT1]).1 = true ∧
    (routeIntersectsAnyThreat [zoneT1] (segPairs routeT1.geometry.coordinates) 0.1
      ["CRITICAL", "HIGH", "MEDIUM"]).1 = true := by
  refine ⟨findDetour_T1, routeT1_safe_by_point_policy, ?_⟩
  · have hz := zoneT1_fields
    have hv := routeT1_vertex_dist
    have hlt : 6371 * (0.003 * π / 180) < 0.34 := by
      nlinarith [Real.pi_lt_d6]
    have hpos : (0 : ℝ) ≤ 6371 * (0.003 * π / 180) := by
      positivity
    have hseg : lineSegIntersectsCircle 0 0.003 0 (-0.003) zoneT1 0.1 = true := by
      simp only [lineSegIntersectsCircle, hz.1, hz.2.1, hz.2.2.1]
      rw [if_pos]
      constructor
      · rw [hv.1]; linarith
      · rw [hv.2]; linarith
    show (routeIntersectsAnyThreat [zoneT1]
      [(((0.003 : ℝ), (0 : ℝ)), ((-0.003 : ℝ), (0 : ℝ)))] 0.1
      ["CRITICAL", "HIGH", "MEDIUM"]).1 = true
    simp only [routeIntersectsAnyThreat, List.find?]
    have hpred : (strUpper zoneT1.threat_level ∈
          (["CRITICAL", "HIGH", "MEDIUM"] : List String) &&
        lineSegIntersectsCircle 0 0.003 0 (-0.003) zoneT1 0.1) = true := by
      rw [hseg, hz.2.2.2]
      decide
    rw [hpred]

/-- C1 (amended): during detour synthesis every alternative returned by the
provider for a candidate waypoint is re-validated with the point-proximity
policy (`_calculate_route_risk`), not the strict circle-intersection policy,
and the first alternative that policy judges safe — in the deterministic
threat → clearance → bearing → alternative order — terminates the search. -/
theorem C1_detour_revalidation (provider : Provider) (sLat sLng eLat eLng : ℝ)
    (threats : List Incident) :
    findDetour provider sLat sLng eLat eLng threats =
      ((flattenAlts provider sLat sLng eLat eLng threats).find?
          fun alt => (calcRouteRisk alt.geometry threats).1).map
        (fun alt => (alt, calcRouteRisk alt.geometry threats)) ∧
    ∀ alt res, findDetour provider sLat sLng eLat eLng threats = some (alt, res) →
      res = calcRouteRisk alt.geometry threats ∧ res.1 = true := by
  refine ⟨findDetour_eq provider sLat sLng eLat eLng threats, ?_⟩
  intro alt res heq
  rw [findDetour_eq] at heq
  cases hfa : (flattenAlts provider sLat sLng eLat eLng threats).find?
      fun a => (calcRouteRisk a.geometry threats).1 with
  | none => rw [hfa] at heq; cases heq
  | some a =>
    rw [hfa] at heq
    have hpa := List.find?_some hfa
    have heq2 : (a, calcRouteRisk a.geometry threats) = (alt, res) := by
      simpa using heq
    injection heq2 with h1 h2
    subst h1
    subst h2
    exact ⟨rfl, by simpa using hpa⟩

/-- C1 witness: the concrete provider/threat configuration of the
counterexample, at which the detour search returns an alternative. -/
theorem C1_witness :
    findDetour provT1 0 0 0 0 [incT1] =
      some (routeT1, calcRouteRisk routeT1.geometry [incT1]) ∧
    calcRouteRisk routeT1.geometry [incT1] =
      calcRouteRisk routeT1.geometry [incT1] ∧
    (calcRouteRisk routeT1.geometry [incT1]).1 = true :=
  ⟨findDetour_T1,
   (C1_detour_revalidation provT1 0 0 0 0 [incT1]).2 routeT1
     (calcRouteRisk routeT1.geometry [incT1]) findDetour_T1⟩

lemma mem_insertRankedDesc {x a : OsrmRoute × SafetyMetrics}
    {l : List (OsrmRoute × SafetyMetrics)} :
    a ∈ insertRankedDesc x l ↔ a = x ∨ a ∈ l := by
  induction l with
  | nil => simp [insertRankedDesc]
  | cons y ys ih =>
    simp only [insertRankedDesc]
    split
    · simp [List.mem_cons]
    · simp only [List.mem_cons, ih]
      tauto

lemma mem_sortRankedDesc {a : OsrmRoute × SafetyMetrics}
    {l : List (OsrmRoute × SafetyMetrics)} :
    a ∈ sortRankedDesc l ↔ a ∈ l := by
  induction l with
  | nil => simp [sortRankedDesc]
  | cons y ys ih => simp [sortRankedDesc, mem_insertRankedDesc, ih]

lemma mem_filterRoutesGo_safe {zones : List ThreatZone} {bufferKm : ℝ}
    {routes : List OsrmRoute} {r : OsrmRoute} (hm : r ∈ routes)
    (he : r.geometry.coordinates = []) :
    r ∈ (filterRoutesGo zones bufferKm routes).1 := by
  induction routes with
  | nil => cases hm
  | cons r0 rest ih =>
    rcases List.mem_cons.mp hm with rfl | hmem
    · have hE : r.geometry.coordinates.isEmpty = true := by simp [he]
      simp only [filterRoutesGo, hE, if_true]
      exact List.mem_cons_self _ _
    · simp only [filterRoutesGo]
      split
      · exact List.mem_cons_of_mem _ (ih hmem)
      · split
        · exact ih hmem
        · exact List.mem_cons_of_mem _ (ih hmem)

/-- C9: a route whose geometry has an empty coordinate list is classified
safe with score 1.0 and no threat intersections by the point-proximity
evaluator, by `filter_routes_by_safety`, and by `rank_routes_by_safety`,
for every store and incident list. -/
theorem C9_empty_geometry_safe :
    ∀ (zones : List ThreatZone) (incidents : List Incident)
      (routes : List OsrmRoute) (r : OsrmRoute) (bufferKm : ℝ) (keepRejected : Bool),
      r.geometry.coordinates = [] →
      calcRouteRisk r.geometry incidents = (true, 1, RiskInfo.noCoordinates) ∧
      (r ∈ routes → r ∈ filterRoutesBySafety zones routes bufferKm) ∧
      (r ∈ routes →
        (r, ({ is_safe := true, safety_score := 1, threat_intersections := []
               closest_threat := none, has_critical_threat := false } : SafetyMetrics))
          ∈ rankRoutesBySafety routes zones keepRejected) := by
  intro zones incidents routes r bufferKm keepRejected he
  refine ⟨by simp [calcRouteRisk, he], ?_, ?_⟩
  · intro hm
    have h : r ∈ (filterRoutesGo zones bufferKm routes).1 :=
      mem_filterRoutesGo_safe hm he
    have hne : (filterRoutesGo zones bufferKm routes).1.isEmpty ≠ true := by
      intro hh
      rw [List.isEmpty_iff] at hh
      rw [hh] at h
      exact List.not_mem_nil _ h
    simp only [filterRoutesBySafety]
    rw [if_neg hne]
    exact h
  · intro hm
    have hE : r.geometry.coordinates.isEmpty = true := by simp [he]
    have hranked :
        (r, ({ is_safe := true, safety_score := 1, threat_intersections := []
               closest_threat := none, has_critical_threat := false } : SafetyMetrics)) ∈
          routes.map fun rr =>
            if rr.geometry.coordinates.isEmpty then
              (rr, ({ is_safe := true, safety_score := 1, threat_intersections := []
                      closest_threat := none, has_critical_threat := false } : SafetyMetrics))
            else (rr, validateRouteSafety rr.geometry.coordinates zones) :=
      List.mem_map.mpr ⟨r, hm, by rw [if_pos hE]⟩
    have hsorted := mem_sortRankedDesc.mpr hranked
    simp only [rankRoutesBySafety]
    split
    · exact hsorted
    · split
      · exact hsorted
      · exact List.mem_filter.mpr ⟨hsorted, rfl⟩

/-- C9 witness: a concrete empty-geometry route against a concrete store and
incident list. -/
theorem C9_witness :
    emptyRoute.geometry.coordinates = [] ∧
    calcRouteRisk emptyRoute.geometry [incT1] = (true, 1, RiskInfo.noCoordinates) ∧
    emptyRoute ∈ filterRoutesBySafety [zoneC6] [emptyRoute] 0.1 ∧
    (emptyRoute, ({ is_safe := true, safety_score := 1, threat_intersections := []
                    closest_threat := none, has_critical_threat := false } : SafetyMetrics))
      ∈ rankRoutesBySafety [emptyRoute] [zoneC6] false :=
  ⟨rfl,
   (C9_empty_geometry_safe [zoneC6] [incT1] [emptyRoute] emptyRoute 0.1 false rfl).1,
   (C9_empty_geometry_safe [zoneC6] [incT1] [emptyRoute] emptyRoute 0.1 false rfl).2.1
     (by simp),
   (C9_empty_geometry_safe [zoneC6] [incT1] [emptyRoute] emptyRoute 0.1 false rfl).2.2
     (by simp)⟩







lemma flatMap_const_nil {α β : Type} (l : List α) :
    (l.flatMap fun _ => ([] : List β)) = [] := by
  induction l with
  | nil => rfl
  | cons a rest ih => simp [List.flatMap_cons, ih]

/-- C7: when every provider-supplied candidate is judged unsafe and every
alternative the detour search can examine is judged unsafe as well, the route
calculation returns the structured `NO_SAFE_ROUTES` failure carrying the
blocking threats and the fixed recommendation strings — never a best-effort
route. -/
theorem C7_no_safe_route_failure (req : RouteReq) (routes : List OsrmRoute)
    (incidents : List RawIncident) (provider : Provider)
    (hne : routes ≠ [])
    (hall : ∀ r ∈ routes,
      (calcRouteRisk r.geometry (nearbyThreats req incidents)).1 = false)
    (hdet : ∀ alt ∈ flattenAlts provider req.start_lat req.start_lng
        req.end_lat req.end_lng (nearbyThreats req incidents),
      (calcRouteRisk alt.geometry (nearbyThreats req incidents)).1 = false) :
    calcSafeRoute req routes incidents provider =
      RouteCalcResult.noSafeRoutes (nearbyThreats req incidents) routes.length
        noSafeRecommendations := by
  have hempty : routes.isEmpty ≠ true := by
    intro hh
    rw [List.isEmpty_iff] at hh
    exact hne hh
  simp only [calcSafeRoute, if_neg hempty]
  have hsafeR : (routes.map (evalRouteWith (nearbyThreats req incidents))).filter
      (·.is_safe) = [] := by
    rw [List.filter_eq_nil_iff]
    intro a ha
    obtain ⟨r, hr, rfl⟩ := List.mem_map.mp ha
    simp [evalRouteWith, hall r hr]
  have hdetour : findDetour provider req.start_lat req.start_lng req.end_lat
      req.end_lng (nearbyThreats req incidents) = none := by
    rw [findDetour_eq, List.find?_eq_none.mpr]
    · rfl
    · intro alt halt
      simp [hdet alt halt]
  have hrej : (routes.map (evalRouteWith (nearbyThreats req incidents))).filter
      (fun r => !r.is_safe) =
      routes.map (evalRouteWith (nearbyThreats req incidents)) := by
    rw [List.filter_eq_self]
    intro a ha
    obtain ⟨r, hr, rfl⟩ := List.mem_map.mp ha
    simp [evalRouteWith, hall r hr]
  rw [hsafeR, hdetour, hrej]
  simp [sortByScoreDesc]

lemma nearbyThreats_W : nearbyThreats reqW [rawW] = [incW] := by
  have hup : strUpper (levelOrMedium "HIGH") = "HIGH" := by decide
  simp only [nearbyThreats, reqW, rawW, List.filterMap]
  norm_num [hup, incW]

/-- C7 witness: one candidate with its vertex exactly at the only incident,
and a provider with no alternatives. -/
theorem C7_witness :
    (([routeW] : List OsrmRoute) ≠ []) ∧
    (∀ r ∈ ([routeW] : List OsrmRoute),
      (calcRouteRisk r.geometry (nearbyThreats reqW [rawW])).1 = false) ∧
    (∀ alt ∈ flattenAlts provEmpty reqW.start_lat reqW.start_lng
        reqW.end_lat reqW.end_lng (nearbyThreats reqW [rawW]),
      (calcRouteRisk alt.geometry (nearbyThreats reqW [rawW])).1 = false) ∧
    calcSafeRoute reqW [routeW] [rawW] provEmpty =
      RouteCalcResult.noSafeRoutes (nearbyThreats reqW [rawW]) 1
        noSafeRecommendations := by
  have h1 : ([routeW] : List OsrmRoute) ≠ [] := by simp
  have h2 : ∀ r ∈ ([routeW] : List OsrmRoute),
      (calcRouteRisk r.geometry (nearbyThreats reqW [rawW])).1 = false := by
    intro r hr
    simp only [List.mem_singleton] at hr
    subst hr
    rw [nearbyThreats_W, calcRouteRisk_false_iff]
    refine ⟨(0, 0), by simp [routeW], incW, by simp, ?_⟩
    have h0 : incW.latitude = 0 ∧ incW.longitude = 0 := ⟨rfl, rfl⟩
    rw [h0.1, h0.2, haversineKm_self]
    norm_num
  have h3 : ∀ alt ∈ flattenAlts provEmpty reqW.start_lat reqW.start_lng
      reqW.end_lat reqW.end_lng (nearbyThreats reqW [rawW]),
      (calcRouteRisk alt.geometry (nearbyThreats reqW [rawW])).1 = false := by
    intro alt halt
    rw [show flattenAlts provEmpty reqW.start_lat reqW.start_lng
        reqW.end_lat reqW.end_lng (nearbyThreats reqW [rawW]) = [] from
      flatMap_const_nil _] at halt
    cases halt
  exact ⟨h1, h2, h3, by
    have := C7_no_safe_route_failure reqW [routeW] [rawW] provEmpty h1 h2 h3
    simpa using this⟩


lemma haversineKm_same_lat (lat lng1 lng2 : ℝ) :
    haversineKm lat lng1 lat lng2 = 6371 * (2 * Real.arcsin (Real.sqrt
      (Real.cos (radiansR lat) ^ 2 *
        Real.sin ((radiansR lng2 - radiansR lng1) / 2) ^ 2))) := by
  simp only [haversineKm]
  rw [show (radiansR lat - radiansR lat) / 2 = 0 by ring, Real.sin_zero]
  rw [show ((0 : ℝ) ^ 2 + Real.cos (radiansR lat) * Real.cos (radiansR lat) *
      Real.sin ((radiansR lng2 - radiansR lng1) / 2) ^ 2) =
    Real.cos (radiansR lat) ^ 2 *
      Real.sin ((radiansR lng2 - radiansR lng1) / 2) ^ 2 by ring]

lemma hav_80_0_80_1_lt : haversineKm 80 0 80 1 < 39 := by
  have hpi := Real.pi_gt_d6
  have hpi2 := Real.pi_lt_d6
  have hc : Real.cos (radiansR 80) = Real.sin (π / 18) := by
    have hr80 : radiansR 80 = π / 2 - π / 18 := by simp only [radiansR]; ring
    rw [hr80, Real.cos_pi_div_two_sub]
  have hcpos : 0 ≤ Real.sin (π / 18) :=
    le_of_lt (Real.sin_pos_of_pos_of_lt_pi (by nlinarith) (by nlinarith))
  have hspos : 0 ≤ Real.sin ((radiansR 1 - radiansR 0) / 2) := by
    rw [show (radiansR 1 - radiansR 0) / 2 = π / 360 by simp only [radiansR]; ring]
    exact le_of_lt (Real.sin_pos_of_pos_of_lt_pi (by nlinarith) (by nlinarith))
  have hcb : Real.sin (π / 18) ≤ π / 18 :=
    le_of_lt (Real.sin_lt (by nlinarith))
  have hsb : Real.sin ((radiansR 1 - radiansR 0) / 2) ≤ π / 360 := by
    rw [show (radiansR 1 - radiansR 0) / 2 = π / 360 by simp only [radiansR]; ring]
    exact le_of_lt (Real.sin_lt (by nlinarith))
  have hprod : Real.cos (radiansR 80) *
      Real.sin ((radiansR 1 - radiansR 0) / 2) ≤ Real.sin 0.003 := by
    have hsin3 : (0.003 : ℝ) - 0.003 ^ 3 / 4 < Real.sin 0.003 :=
      Real.sin_gt_sub_cube (by norm_num) (by norm_num)
    rw [hc]
    nlinarith
  have hprod0 : 0 ≤ Real.cos (radiansR 80) *
      Real.sin ((radiansR 1 - radiansR 0) / 2) := by
    rw [hc]; exact mul_nonneg hcpos hspos
  rw [haversineKm_same_lat]
  rw [show Real.cos (radiansR 80) ^ 2 *
        Real.sin ((radiansR 1 - radiansR 0) / 2) ^ 2 =
      (Real.cos (radiansR 80) * Real.sin ((radiansR 1 - radiansR 0) / 2)) ^ 2
      by ring]
  rw [Real.sqrt_sq_eq_abs, abs_of_nonneg hprod0]
  have harc : Real.arcsin (Real.cos (radiansR 80) *
      Real.sin ((radiansR 1 - radiansR 0) / 2)) ≤ 0.003 := by
    calc Real.arcsin (Real.cos (radiansR 80) *
          Real.sin ((radiansR 1 - radiansR 0) / 2))
        ≤ Real.arcsin (Real.sin 0.003) := Real.monotone_arcsin hprod
      _ = 0.003 := Real.arcsin_sin (by nlinarith) (by nlinarith)
  nlinarith

lemma hav_m80_0_80_1_gt : 50 < haversineKm (-80) 0 80 1 := by
  have hpi := Real.pi_gt_d6
  have hpi2 := Real.pi_lt_d6
  have hdlat : (radiansR 80 - radiansR (-80)) / 2 = 4 * π / 9 := by
    simp only [radiansR]; ring
  have hsin49 : Real.sin (π / 3) ≤ Real.sin (4 * π / 9) := by
    have h1 : Real.sin (4 * π / 9) = Real.cos (π / 18) := by
      rw [show (4 : ℝ) * π / 9 = π / 2 - π / 18 by ring, Real.sin_pi_div_two_sub]
    have h2 : Real.sin (π / 3) = Real.cos (π / 6) := by
      rw [show π / 3 = π / 2 - π / 6 by ring, Real.sin_pi_div_two_sub]
    rw [h1, h2]
    exact Real.cos_le_cos_of_nonneg_of_le_pi (by nlinarith) (by nlinarith)
      (by nlinarith)
  have hcc : 0 ≤ Real.cos (radiansR (-80)) * Real.cos (radiansR 80) *
      Real.sin ((radiansR 1 - radiansR 0) / 2) ^ 2 := by
    have hc1 : 0 < Real.cos (radiansR (-80)) := by
      apply Real.cos_pos_of_mem_Ioo
      constructor <;> (simp only [radiansR]; nlinarith)
    have hc2 : 0 < Real.cos (radiansR 80) := by
      apply Real.cos_pos_of_mem_Ioo
      constructor <;> (simp only [radiansR]; nlinarith)
    positivity
  have hs49 : 0 ≤ Real.sin (4 * π / 9) :=
    le_of_lt (Real.sin_pos_of_pos_of_lt_pi (by nlinarith) (by nlinarith))
  have hsqrt : Real.sin (4 * π / 9) ≤ Real.sqrt
      (Real.sin ((radiansR 80 - radiansR (-80)) / 2) ^ 2 +
        Real.cos (radiansR (-80)) * Real.cos (radiansR 80) *
          Real.sin ((radiansR 1 - radiansR 0) / 2) ^ 2) := by
    rw [hdlat]
    calc Real.sin (4 * π / 9)
        = Real.sqrt (Real.sin (4 * π / 9) ^ 2) := by
          rw [Real.sqrt_sq_eq_abs, abs_of_nonneg hs49]
      _ ≤ _ := Real.sqrt_le_sqrt (by nlinarith)
  have harc : π / 3 ≤ Real.arcsin (Real.sqrt
      (Real.sin ((radiansR 80 - radiansR (-80)) / 2) ^ 2 +
        Real.cos (radiansR (-80)) * Real.cos (radiansR 80) *
          Real.sin ((radiansR 1 - radiansR 0) / 2) ^ 2)) := by
    have h3 : Real.arcsin (Real.sin (π / 3)) = π / 3 :=
      Real.arcsin_sin (by nlinarith) (by nlinarith)
    calc π / 3 = Real.arcsin (Real.sin (π / 3)) := h3.symm
      _ ≤ _ := Real.monotone_arcsin (le_trans hsin49 hsqrt)
  simp only [haversineKm]
  nlinarith [harc]

lemma planar_C5 : distPointToSegKm 80 1 (-80) 0 80 0 = 111 := by
  simp only [distPointToSegKm, radiansR]
  rw [show ((-80 : ℝ) + 80) / 2 * π / 180 = 0 by ring, Real.cos_zero]
  rw [if_neg (by norm_num)]
  norm_num
  rw [show (12321 : ℝ) = 111 ^ 2 by norm_num, Real.sqrt_sq (by norm_num)]

/-- C5 counterexample: the 50 km zone `zoneC5` at (80°, 1°) strictly contains
the endpoint (80°, 0°) by haversine distance (≈ 19.3 km), yet for the segment
from (-80°, 0°) to (80°, 0°) the planar point-to-segment approximation
(scaled at the segment's midpoint latitude 0°) measures 111 km, and
`line_segment_intersects_circle` returns `False`. -/
theorem C5_counterexample :
    lineSegIntersectsCircle (-80) 0 80 0 zoneC5 0 = false ∧
    haversineKm 80 0 zoneC5.latitude zoneC5.longitude < zoneC5.radius_km := by
  have hlt := hav_80_0_80_1_lt
  have hgt := hav_m80_0_80_1_gt
  have hla : zoneC5.latitude = 80 := rfl
  have hlo : zoneC5.longitude = 1 := rfl
  have hra : zoneC5.radius_km = 50 := rfl
  constructor
  · simp only [lineSegIntersectsCircle, hla, hlo, hra]
    rw [if_neg (by rintro ⟨h1, _⟩; rw [show (50 : ℝ) + 0 = 50 by norm_num] at h1; linarith)]
    rw [if_neg (by rintro ⟨_, h2, _⟩; rw [show (50 : ℝ) + 0 = 50 by norm_num] at h2; linarith)]
    rw [planar_C5]
    exact decide_eq_false (by norm_num)
  · rw [hla, hlo, hra]
    linarith

/-- C5 (amended): when at least one endpoint is within the effective radius
(zone radius + buffer) by haversine distance, `segmentIntersectsCircle`
returns `true` iff both endpoints are within the effective radius or the
planar point-to-segment distance from the centre is at most the effective
radius.  (With one endpoint merely strictly inside `C.radius` the planar
distance can still exceed the effective radius, making the result `false`.) -/
theorem C5_intersect_characterised (circle : ThreatZone)
    (bufferKm lat1 lng1 lat2 lng2 : ℝ)
    (h : haversineKm lat1 lng1 circle.latitude circle.longitude ≤
        circle.radius_km + bufferKm ∨
      haversineKm lat2 lng2 circle.latitude circle.longitude ≤
        circle.radius_km + bufferKm) :
    lineSegIntersectsCircle lat1 lng1 lat2 lng2 circle bufferKm = true ↔
      ((haversineKm lat1 lng1 circle.latitude circle.longitude ≤
          circle.radius_km + bufferKm ∧
        haversineKm lat2 lng2 circle.latitude circle.longitude ≤
          circle.radius_km + bufferKm) ∨
       distPointToSegKm circle.latitude circle.longitude lat1 lng1 lat2 lng2 ≤
         circle.radius_km + bufferKm) := by
  simp only [lineSegIntersectsCircle]
  by_cases hb : haversineKm lat1 lng1 circle.latitude circle.longitude ≤
      circle.radius_km + bufferKm ∧
      haversineKm lat2 lng2 circle.latitude circle.longitude ≤
        circle.radius_km + bufferKm
  · rw [if_pos hb]
    simp [hb]
  · rw [if_neg hb]
    rw [if_neg (by
      rintro ⟨h1, h2, _⟩
      rcases h with h | h <;> linarith)]
    simp [hb, decide_eq_true_eq]

/-- C5 witness: a degenerate segment at the centre of a unit zone. -/
theorem C5_witness :
    (haversineKm 0 0 zoneC6.latitude zoneC6.longitude ≤ zoneC6.radius_km + 0 ∨
      haversineKm 0 0 zoneC6.latitude zoneC6.longitude ≤ zoneC6.radius_km + 0) ∧
    lineSegIntersectsCircle 0 0 0 0 zoneC6 0 = true := by
  have h0 : haversineKm 0 0 zoneC6.latitude zoneC6.longitude ≤
      zoneC6.radius_km + 0 := by
    rw [show zoneC6.latitude = 0 from rfl, show zoneC6.longitude = 0 from rfl,
      show zoneC6.radius_km = 1 from rfl, haversineKm_self]
    norm_num
  exact ⟨Or.inl h0,
    (C5_intersect_characterised zoneC6 0 0 0 0 0 (Or.inl h0)).mpr (Or.inl ⟨h0, h0⟩)⟩

lemma closestScanZones_minSt {p : (ℝ × ℝ) × (ℝ × ℝ)}
    {st : Option (ℝ × ThreatZone)} {cs : List (ℝ × ThreatZone)}
    (h : MinSt st cs) (zs : List ThreatZone) :
    MinSt (closestScanZones p st zs) (cs ++ zs.map fun z => (segDist z p, z)) := by
  induction zs generalizing st cs with
  | nil => simpa using h
  | cons z rest ih =>
    simp only [closestScanZones]
    have h2 := ih (minSt_update h (segDist z p) z)
    simpa [List.append_assoc] using h2

lemma closestScan_minSt (zones : List ThreatZone) :
    ∀ (ps : List ((ℝ × ℝ) × (ℝ × ℝ))) (st : Option (ℝ × ThreatZone))
      (cs : List (ℝ × ThreatZone)), MinSt st cs →
      MinSt (closestScan zones st ps)
        (cs ++ ps.flatMap fun p => zones.map fun z => (segDist z p, z)) := by
  intro ps
  induction ps with
  | nil => intro st cs h; simpa using h
  | cons p rest ih =>
    intro st cs h
    simp only [closestScan]
    have h2 := ih (closestScanZones p st zones) _ (closestScanZones_minSt h zones)
    simpa [List.append_assoc, List.flatMap_cons] using h2

lemma segPairs_eq_nil_iff (coords : List (ℝ × ℝ)) :
    segPairs coords = [] ↔ coords.length ≤ 1 := by
  rcases coords with _ | ⟨a, _ | ⟨b, rest⟩⟩ <;> simp [segPairs]

lemma zoneCands_mem_iff {zones : List ThreatZone} {coords : List (ℝ × ℝ)}
    {d : ℝ} {z : ThreatZone} :
    (d, z) ∈ zoneCands zones coords ↔
      ∃ p ∈ segPairs coords, z ∈ zones ∧ d = segDist z p := by
  simp only [zoneCands, List.mem_flatMap, List.mem_map]
  constructor
  · rintro ⟨p, hp, z2, hz2, heq⟩
    injection heq with h1 h2
    subst h2
    exact ⟨p, hp, hz2, h1.symm⟩
  · rintro ⟨p, hp, hz, rfl⟩
    exact ⟨p, hp, z, hz, rfl⟩

lemma zoneCands_eq_nil_iff {zones : List ThreatZone} {coords : List (ℝ × ℝ)} :
    zoneCands zones coords = [] ↔ zones = [] ∨ coords.length ≤ 1 := by
  rw [← segPairs_eq_nil_iff]
  simp only [zoneCands, List.flatMap_eq_nil_iff, List.map_eq_nil_iff]
  constructor
  · intro h
    rcases hsp : segPairs coords with _ | ⟨p, rest⟩
    · exact Or.inr rfl
    · exact Or.inl (h p (by rw [hsp]; exact List.mem_cons_self _ _))
  · rintro (rfl | h)
    · intro p _; rfl
    · intro p hp
      rw [h] at hp
      cases hp

/-- C6 (amended): `get_closest_threat_to_route` returns `None` exactly when
the store holds zero zones or the polyline has fewer than two coordinates;
otherwise it returns the closest zone's id, level and score together with
`min_distance_km = round3(max(0, minRawDistance - radius))` and
`inside = (minRawDistance ≤ radius)`, where `minRawDistance` is the minimum
planar point-to-segment distance over all zone/segment pairs. -/
theorem C6_closest_characterised (zones : List ThreatZone)
    (coords : List (ℝ × ℝ)) :
    (getClosestThreatToRoute zones coords = none ↔
      zones = [] ∨ coords.length ≤ 1) ∧
    (∀ r, getClosestThreatToRoute zones coords = some r →
      ∃ m z, z ∈ zones ∧
        (∃ p ∈ segPairs coords, segDist z p = m) ∧
        (∀ z2 ∈ zones, ∀ p ∈ segPairs coords, m ≤ segDist z2 p) ∧
        r = ⟨z.zone_id, z.threat_level, z.threat_score,
          round3 (max 0 (m - z.radius_km)), decide (m ≤ z.radius_km)⟩) := by
  have hmin0 := closestScan_minSt zones (segPairs coords) none [] (by simp [MinSt])
  simp only [List.nil_append] at hmin0
  have hmin : MinSt (closestScan zones none (segPairs coords))
      (zoneCands zones coords) := hmin0
  constructor
  · cases hscan : closestScan zones none (segPairs coords) with
    | none =>
      rw [hscan] at hmin
      simp only [MinSt] at hmin
      simp only [getClosestThreatToRoute, hscan]
      simpa using zoneCands_eq_nil_iff.mp hmin
    | some mz =>
      obtain ⟨m, z⟩ := mz
      rw [hscan] at hmin
      simp only [MinSt] at hmin
      have hmem := hmin.1
      have hne : ¬ (zones = [] ∨ coords.length ≤ 1) := by
        intro hcase
        have : zoneCands zones coords = [] := zoneCands_eq_nil_iff.mpr hcase
        rw [this] at hmem
        cases hmem
      simp only [getClosestThreatToRoute, hscan]
      simp [hne]
  · intro r hr
    cases hscan : closestScan zones none (segPairs coords) with
    | none =>
      simp only [getClosestThreatToRoute, hscan] at hr
      cases hr
    | some mz =>
      obtain ⟨m, z⟩ := mz
      rw [hscan] at hmin
      simp only [MinSt] at hmin
      obtain ⟨p, hp, hz, hd⟩ := zoneCands_mem_iff.mp hmin.1
      refine ⟨m, z, hz, ⟨p, hp, hd.symm⟩, ?_, ?_⟩
      · intro z2 hz2 p2 hp2
        exact hmin.2 (segDist z2 p2, z2) (zoneCands_mem_iff.mpr ⟨p2, hp2, hz2, rfl⟩)
      · simp only [getClosestThreatToRoute, hscan] at hr
        injection hr with hr2
        exact hr2.symm

lemma planar_W : distPointToSegKm 0 0 0 0 0 0.001 = 0 := by
  simp only [distPointToSegKm, radiansR]
  rw [show ((0 : ℝ) + 0) / 2 * π / 180 = 0 by ring, Real.cos_zero]
  rw [if_neg (by norm_num)]
  norm_num

lemma segDist_W : segDist zoneC6 (((0 : ℝ), (0 : ℝ)), ((0.001 : ℝ), (0 : ℝ))) = 0 := by
  show distPointToSegKm zoneC6.latitude zoneC6.longitude 0 0 0 0.001 = 0
  rw [show zoneC6.latitude = 0 from rfl, show zoneC6.longitude = 0 from rfl]
  exact planar_W

lemma getClosest_W :
    getClosestThreatToRoute [zoneC6] [((0 : ℝ), (0 : ℝ)), ((0.001 : ℝ), (0 : ℝ))] =
      some ⟨"Z6", "HIGH", 1/2, 0, true⟩ := by
  have hstep : closestScan [zoneC6] none
      (segPairs [((0 : ℝ), (0 : ℝ)), ((0.001 : ℝ), (0 : ℝ))]) = some (0, zoneC6) := by
    show closestScan [zoneC6] none [(((0 : ℝ), (0 : ℝ)), ((0.001 : ℝ), (0 : ℝ)))] =
      some (0, zoneC6)
    simp only [closestScan, closestScanZones, minUpdate]
    rw [segDist_W]
  simp only [getClosestThreatToRoute, hstep]
  have h1 : round3 (max 0 (0 - zoneC6.radius_km)) = 0 := by
    rw [show zoneC6.radius_km = 1 from rfl]
    rw [show max (0 : ℝ) (0 - 1) = 0 by norm_num]
    rw [round3]
    norm_num
  have h2 : decide ((0 : ℝ) ≤ zoneC6.radius_km) = true := by
    rw [show zoneC6.radius_km = 1 from rfl]
    exact decide_eq_true (by norm_num)
  rw [h1, h2]
  rfl

/-- C6 witness: a two-vertex polyline against a one-zone store. -/
theorem C6_witness :
    ¬(([zoneC6] : List ThreatZone) = [] ∨
        ([((0 : ℝ), (0 : ℝ)), ((0.001 : ℝ), (0 : ℝ))] : List (ℝ × ℝ)).length ≤ 1) ∧
    ∃ m z, z ∈ ([zoneC6] : List ThreatZone) ∧
      (∃ p ∈ segPairs [((0 : ℝ), (0 : ℝ)), ((0.001 : ℝ), (0 : ℝ))], segDist z p = m) ∧
      (∀ z2 ∈ ([zoneC6] : List ThreatZone),
        ∀ p ∈ segPairs [((0 : ℝ), (0 : ℝ)), ((0.001 : ℝ), (0 : ℝ))], m ≤ segDist z2 p) ∧
      (⟨"Z6", "HIGH", 1/2, 0, true⟩ : ClosestThreat) =
        ⟨z.zone_id, z.threat_level, z.threat_score,
          round3 (max 0 (m - z.radius_km)), decide (m ≤ z.radius_km)⟩ :=
  ⟨by simp,
   (C6_closest_characterised [zoneC6]
      [((0 : ℝ), (0 : ℝ)), ((0.001 : ℝ), (0 : ℝ))]).2
     ⟨"Z6", "HIGH", 1/2, 0, true⟩ getClosest_W⟩

lemma popMin_spec : ∀ l : List DEntry,
    (l = [] ∧ popMin l = none) ∨
      ∃ e rest, popMin l = some (e, rest) ∧ l.Perm (e :: rest) := by
  intro l
  induction l with
  | nil => exact Or.inl ⟨rfl, rfl⟩
  | cons a as ih =>
    right
    rcases ih with ⟨rfl, hnone⟩ | ⟨m, r2, heq, hperm⟩
    · exact ⟨a, [], by simp [popMin], List.Perm.refl _⟩
    · simp only [popMin, heq]
      by_cases hle : entryLE a m
      · exact ⟨a, as, by rw [if_pos hle], List.Perm.refl _⟩
      · refine ⟨m, a :: r2, by rw [if_neg hle], ?_⟩
        exact (hperm.cons a).trans (List.Perm.swap m a r2)

lemma segOK_of_mem_expand {edges : EdgeList} {nodes : NodeList}
    {visited1 : List String} {e e2 : DEntry}
    (hOK : SegOK edges e.segs) (hmem : e2 ∈ expandEntry edges nodes visited1 e) :
    SegOK edges e2.segs := by
  simp only [expandEntry, List.mem_filterMap] at hmem
  obtain ⟨⟨next, erisk⟩, hnb, heq⟩ := hmem
  by_cases hvis : next ∈ visited1
  · rw [if_pos hvis] at heq
    cases heq
  · rw [if_neg hvis] at heq
    simp only [getConnectedNodes, List.mem_filterMap] at hnb
    obtain ⟨⟨key, ed0⟩, hed0, hed0eq⟩ := hnb
    by_cases hfrom : ed0.from_node = e.node
    · rw [if_pos hfrom] at hed0eq
      injection hed0eq with h1
      injection h1 with hto hrisk
      have hto2 : ed0.to_node = next := hto
      have hfm : ∃ x, firstMatch edges e.node next = some x := by
        rcases hx : firstMatch edges e.node next with _ | x
        · exfalso
          rw [firstMatch, List.find?_eq_none] at hx
          have hcontra := hx (key, ed0) hed0
          simp [hfrom, hto2] at hcontra
        · exact ⟨x, rfl⟩
      obtain ⟨⟨k, ed⟩, hfm⟩ := hfm
      injection heq with heq2
      subst heq2
      intro s hs
      simp only [List.mem_append, List.mem_singleton] at hs
      rcases hs with hs | rfl
      · exact hOK s hs
      · refine ⟨ed, ?_⟩
        show firstMatch edges e.node next =
          some ((Option.map Prod.fst (firstMatch edges e.node next)).getD
            (e.node ++ "_" ++ next), ed)
        rw [hfm]
        rfl
    · rw [if_neg hfrom] at hed0eq
      cases hed0eq

lemma dijkstraGo_segOK {edges : EdgeList} {nodes : NodeList} {endN : String} :
    ∀ (fuel : ℕ) (heap : List DEntry) (visited : List String),
      (∀ e ∈ heap, SegOK edges e.segs) →
      ∀ p ρ segs, dijkstraGo edges nodes endN fuel heap visited = some (p, ρ, segs) →
        SegOK edges segs := by
  intro fuel
  induction fuel with
  | zero => intro heap visited _ p ρ segs h; simp [dijkstraGo] at h
  | succ fuel ih =>
    intro heap visited hinv p ρ segs heq
    rcases popMin_spec heap with ⟨rfl, hpop⟩ | ⟨e, rest, hpop, hperm⟩
    · simp [dijkstraGo, hpop] at heq
    · have hmemE : e ∈ heap := hperm.mem_iff.mpr (List.mem_cons_self _ _)
      have hmemR : ∀ x ∈ rest, x ∈ heap := fun x hx =>
        hperm.mem_iff.mpr (List.mem_cons_of_mem _ hx)
      simp only [dijkstraGo, hpop] at heq
      split at heq
      · exact ih rest visited (fun x hx => hinv x (hmemR x hx)) p ρ segs heq
      · split at heq
        · injection heq with h1
          injection h1 with hp h2
          injection h2 with hρ hsegs
          rw [← hsegs]
          exact hinv e hmemE
        · refine ih _ _ ?_ p ρ segs heq
          intro x hx
          rcases List.mem_append.mp hx with hx | hx
          · exact hinv x (hmemR x hx)
          · exact segOK_of_mem_expand (hinv e hmemE) hx

lemma dijkstra_segOK {edges : EdgeList} {nodes : NodeList}
    {startN endN : String} {p : List String} {ρ : ℚ} {segs : List RouteSeg}
    (h : dijkstraSafestPath edges nodes startN endN = some (p, ρ, segs)) :
    SegOK edges segs := by
  simp only [dijkstraSafestPath] at h
  split at h
  · injection h with h1
    injection h1 with hp h2
    injection h2 with hρ hsegs
    rw [← hsegs]
    intro s hs
    cases hs
  · refine dijkstraGo_segOK 1000 _ [] ?_ p ρ segs h
    intro e he
    simp only [List.mem_singleton] at he
    subst he
    intro s hs
    cases hs

lemma segOK_filter_not_blocked {edgesO : EdgeList} {blocked : List String}
    {segs : List RouteSeg}
    (h : SegOK (edgesO.filter fun p => p.1 ∉ blocked) segs) :
    ∀ s ∈ segs, s.edge_id ∉ blocked := by
  intro s hs
  obtain ⟨ed, hfm⟩ := h s hs
  have hmem := List.mem_of_find?_eq_some hfm
  have := (List.mem_filter.mp hmem).2
  exact of_decide_eq_true this

lemma firstMatch_append_of_some {l1 l2 : EdgeList} {u v : String}
    {x : String × GEdge} (h : firstMatch l1 u v = some x) :
    firstMatch (l1 ++ l2) u v = some x := by
  simp only [firstMatch, List.find?_append]
  rw [show firstMatch l1 u v = List.find?
    (fun p => p.2.from_node == u && p.2.to_node == v) l1 from rfl] at h
  rw [h]
  rfl

lemma blockAdd_mem_self (bl : List String) (eid : String) : eid ∈ blockAdd bl eid := by
  simp only [blockAdd]
  split
  · assumption
  · simp

lemma blockAdd_subset {bl : List String} {eid : String} :
    ∀ x ∈ bl, x ∈ blockAdd bl eid := by
  intro x hx
  simp only [blockAdd]
  split
  · exact hx
  · exact List.mem_append_left _ hx

lemma blockSegs_subset {edgesR : EdgeList} (segs : List RouteSeg) :
    ∀ (bl : List String), ∀ x ∈ bl, x ∈ blockSegs edgesR bl segs := by
  induction segs with
  | nil => intro bl x hx; exact hx
  | cons s rest ih =>
    intro bl x hx
    simp only [blockSegs]
    cases hfm : firstMatch edgesR s.from_node s.to_node with
    | none => exact ih bl x hx
    | some y => exact ih _ x (blockAdd_subset x hx)

lemma blockSegs_mem {edgesR : EdgeList} {segs : List RouteSeg}
    (hOK : SegOK edgesR segs) :
    ∀ (bl : List String), ∀ s ∈ segs, s.edge_id ∈ blockSegs edgesR bl segs := by
  induction segs with
  | nil => intro bl s hs; cases hs
  | cons s0 rest ih =>
    intro bl s hs
    have hOKrest : SegOK edgesR rest := fun t ht => hOK t (List.mem_cons_of_mem _ ht)
    simp only [blockSegs]
    obtain ⟨ed, hfm⟩ := hOK s0 (List.mem_cons_self _ _)
    rw [hfm]
    rcases List.mem_cons.mp hs with rfl | hs2
    · exact blockSegs_subset rest _ _ (blockAdd_mem_self bl s.edge_id)
    · exact ih hOKrest _ s hs2

lemma findKGo_pairwise {nodes : NodeList} {startN endN : String} :
    ∀ (k : ℕ) (edgesO : EdgeList) (blocked : List String) (acc : List PathResult),
      (∀ r ∈ acc, ∀ s ∈ r.2.2, s.edge_id ∈ blocked) →
      List.Pairwise IdsDisjoint acc →
      List.Pairwise IdsDisjoint (findKGo nodes startN endN k edgesO blocked acc) := by
  intro k
  induction k with
  | zero => intro edgesO blocked acc _ hpw; exact hpw
  | succ k ih =>
    intro edgesO blocked acc hinv hpw
    simp only [findKGo]
    cases hres : dijkstraSafestPath (edgesO.filter fun p => p.1 ∉ blocked)
        nodes startN endN with
    | none => exact hpw
    | some r =>
      obtain ⟨pth, ρ, segs⟩ := r
      have hOKd : SegOK (edgesO.filter fun p => p.1 ∉ blocked) segs :=
        dijkstra_segOK hres
      have hnotbl : ∀ s ∈ segs, s.edge_id ∉ blocked :=
        segOK_filter_not_blocked hOKd
      have hOKR : SegOK ((edgesO.filter fun p => p.1 ∉ blocked) ++
          edgesO.filter fun p => p.1 ∈ blocked) segs := by
        intro s hs
        obtain ⟨ed, hfm⟩ := hOKd s hs
        exact ⟨ed, firstMatch_append_of_some hfm⟩
      apply ih
      · intro r2 hr2 s hs
        rcases List.mem_append.mp hr2 with hr2 | hr2
        · exact blockSegs_subset _ _ _ (hinv r2 hr2 s hs)
        · simp only [List.mem_singleton] at hr2
          subst hr2
          exact blockSegs_mem hOKR _ s hs
      · rw [List.pairwise_append]
        refine ⟨hpw, by simp [List.Pairwise], ?_⟩
        intro a ha b hb
        simp only [List.mem_singleton] at hb
        subst hb
        intro s hs t ht
        intro hcontra
        have h1 : s.edge_id ∈ blocked := hinv a ha s hs
        have h2 : t.edge_id ∉ blocked := hnotbl t ht
        rw [hcontra] at h1
        exact h2 h1

lemma mem_insertByRisk {x a : PathResult} {l : List PathResult} :
    a ∈ insertByRisk x l ↔ a = x ∨ a ∈ l := by
  induction l with
  | nil => simp [insertByRisk]
  | cons y ys ih =>
    simp only [insertByRisk]
    split
    · simp [List.mem_cons]
    · simp only [List.mem_cons, ih]
      tauto

lemma insertByRisk_perm (x : PathResult) (l : List PathResult) :
    (insertByRisk x l).Perm (x :: l) := by
  induction l with
  | nil => exact List.Perm.refl _
  | cons y ys ih =>
    simp only [insertByRisk]
    split
    · exact List.Perm.refl _
    · exact (ih.cons y).trans (List.Perm.swap x y ys)

lemma sortByRisk_perm (l : List PathResult) : (sortByRisk l).Perm l := by
  induction l with
  | nil => exact List.Perm.refl _
  | cons x xs ih =>
    simp only [sortByRisk]
    exact (insertByRisk_perm x (sortByRisk xs)).trans (ih.cons x)

lemma insertByRisk_sorted {x : PathResult} {l : List PathResult}
    (h : List.Pairwise (fun a b : PathResult => a.2.1 ≤ b.2.1) l) :
    List.Pairwise (fun a b : PathResult => a.2.1 ≤ b.2.1) (insertByRisk x l) := by
  induction l with
  | nil => simp [insertByRisk]
  | cons y ys ih =>
    simp only [insertByRisk]
    obtain ⟨hy, hys⟩ := List.pairwise_cons.mp h
    split
    · refine List.Pairwise.cons ?_ h
      intro b hb
      rcases List.mem_cons.mp hb with rfl | hb
      · assumption
      · exact le_trans (by assumption) (hy b hb)
    · refine List.Pairwise.cons ?_ (ih hys)
      intro b hb
      rcases mem_insertByRisk.mp hb with rfl | hb
      · exact le_of_not_le (by assumption)
      · exact hy b hb

lemma sortByRisk_sorted (l : List PathResult) :
    List.Pairwise (fun a b : PathResult => a.2.1 ≤ b.2.1) (sortByRisk l) := by
  induction l with
  | nil => simp [sortByRisk]
  | cons x xs ih => exact insertByRisk_sorted ih

lemma idsDisjoint_symm : Symmetric IdsDisjoint := by
  intro a b h s hs t ht
  exact (h t ht s hs).symm

/-- C4: for every graph and every k ≥ 1, `find_k_safest_paths` returns its
paths sorted in non-decreasing total-risk order, and no two returned paths
share a recorded edge id. -/
theorem C4_k_paths_sorted_disjoint (edges : EdgeList) (nodes : NodeList)
    (startN endN : String) (k : ℕ) (_hk : 1 ≤ k) :
    List.Pairwise (fun a b : PathResult => a.2.1 ≤ b.2.1)
      (findKSafestPaths edges nodes startN endN k) ∧
    List.Pairwise IdsDisjoint (findKSafestPaths edges nodes startN endN k) := by
  constructor
  · exact sortByRisk_sorted _
  · have h : List.Pairwise IdsDisjoint (findKGo nodes startN endN k edges [] []) :=
      findKGo_pairwise k edges [] [] (by intro r hr; cases hr) (by simp [List.Pairwise])
    have hperm := sortByRisk_perm (findKGo nodes startN endN k edges [] [])
    exact (hperm.pairwise_iff fun hab => idsDisjoint_symm hab).mpr h

/-- C4 witness: the one-edge graph `wEdges` with k = 2. -/
theorem C4_witness :
    1 ≤ 2 ∧
    (List.Pairwise (fun a b : PathResult => a.2.1 ≤ b.2.1)
      (findKSafestPaths wEdges wNodes "A" "B" 2) ∧
    List.Pairwise IdsDisjoint (findKSafestPaths wEdges wNodes "A" "B" 2)) :=
  ⟨by norm_num, C4_k_paths_sorted_disjoint wEdges wNodes "A" "B" 2 (by norm_num)⟩
